import Mathlib

/-! Shallow embedding of `smart_pointers.h`.

The header defines `SharedPtr<T>` (owning handle), `WeakPtr<T>` (observer handle), the two
control-block variants `ControlBlockDirect` and `ControlBlockMakeShared`, and the factories
`allocateShared` / `makeShared`.

Modelling decisions.

* The free store is a list of slots indexed by block address; a slot is `none` once the
  block's storage has been deallocated. Handle objects (`SharedPtr`, `WeakPtr`) live in two
  further lists, a slot being `none` once the object's lifetime has ended.
* `size_t` is `Nat` with explicit wrap-around modulo `2 ^ 64` on `++` and `--`.
* Every member function is a state transformer in the monad `M`. Dereferencing `nullptr`,
  touching a deallocated block and using an object whose lifetime has ended are undefined
  behaviour in C++; the model stops there with a `Fault`, keeping the state reached so far.
* The observable effects (deleter calls, in-place destruction, deallocation) are appended to
  an event log in the order in which they happen.
* Deleters, allocators and the managed values are identified by tags; allocation always
  succeeds and returns the next unused address.
* The converting members (`SharedPtr<Y>` to `SharedPtr<T>`) are modelled on the same handle
  objects; the `reinterpret_cast` of the block pointer has no counterpart.
* The overload `void reset(Y* ptr, Deleter del)` is not modelled: its last statement is
  `cb = new ControlBlockBase(ptr, 1, 0, del);`, which constructs the abstract base class from
  four arguments and is ill-formed once the template is instantiated.
* The converting move constructors `SharedPtr(SharedPtr<Y>&&)` and `WeakPtr(WeakPtr<Y>&&)` are
  not modelled either: they initialise `cb` from a pointer to the control block type of
  `SharedPtr<Y>` without the `reinterpret_cast` of their siblings, so they cannot be
  instantiated for `Y` different from `T`, and for `Y = T` the non-template constructor is
  selected.
-/

namespace SmartPointers

/-! ## Data model -/

/-- A value of type `T*`: `nullptr`, a pointer handed in by the caller, or the address of the
`object` member of the `ControlBlockMakeShared` stored at a block address. -/
inductive ValPtr where
  | null
  | raw (addr : Nat)
  | object (block : Nat)
deriving DecidableEq, Repr

/-- A destruction policy: `std::default_delete<T>` or a caller-supplied callable. -/
inductive Deleter where
  | default_delete
  | custom (tag : Nat)
deriving DecidableEq, Repr

/-- An allocation policy: `std::allocator<T>` or a caller-supplied allocator. -/
inductive Alloc where
  | allocator
  | custom (tag : Nat)
deriving DecidableEq, Repr

/-- How the inline `object` of a `ControlBlockMakeShared` was initialised: `T()`, or from the
forwarded argument. -/
inductive Object where
  | value_init
  | from_arg (v : Nat)
deriving DecidableEq, Repr

/-- The dynamic type of a control block together with the members the derived class adds. -/
inductive Derived where
  | ControlBlockDirect (del : Deleter) (alloc : Alloc)
  | ControlBlockMakeShared (object : Object) (alloc : Alloc)
deriving DecidableEq, Repr

/-- The members of `ControlBlockBase`, plus the derived part. -/
structure ControlBlockBase where
  shared_count : Nat
  weak_count : Nat
  ptr : ValPtr
  derived : Derived
deriving DecidableEq, Repr

/-- A value of type `ControlBlockBase*`; `none` is `nullptr`. -/
abbrev CbPtr := Option Nat

/-- Observable effects of `destroy()` and `dispose()`. -/
inductive Event where
  /-- The call `del(this->ptr)` in `ControlBlockDirect::destroy`. -/
  | deleter_call (this : Nat) (del : Deleter) (ptr : ValPtr)
  /-- The call `std::allocator_traits<Alloc>::destroy(alloc, this->ptr)` in
  `ControlBlockMakeShared::destroy`. -/
  | allocator_destroy (this : Nat) (alloc : Alloc) (ptr : ValPtr)
  /-- The call `std::allocator_traits<AllocRebind>::deallocate(allc, this, 1)` in either
  `dispose`. -/
  | deallocate (this : Nat) (alloc : Alloc)
deriving DecidableEq, Repr

/-- Program state. -/
structure State where
  /-- Control blocks by address; `none` marks deallocated storage. -/
  heap : List (Option ControlBlockBase)
  /-- Objects of type `SharedPtr`: `none` after the destructor, otherwise the member `cb`. -/
  shared : List (Option CbPtr)
  /-- Objects of type `WeakPtr`: `none` after the destructor, otherwise the member `cb`. -/
  weak : List (Option CbPtr)
  /-- Effects so far, oldest first. -/
  log : List Event
deriving DecidableEq, Repr

/-- The state before any object exists. -/
def State.empty : State := { heap := [], shared := [], weak := [], log := [] }

/-- Undefined behaviour reached by the program. -/
inductive Fault where
  | null_deref
  | use_after_free
  | lifetime_ended
deriving DecidableEq, Repr

/-- Outcome of running a member function. -/
inductive Res (α : Type) where
  | ok (val : α) (s : State)
  | fault (f : Fault) (s : State)
deriving DecidableEq, Repr

/-- State transformers that may hit undefined behaviour. -/
def M (α : Type) : Type := State → Res α

/-- Sequencing in `M`. -/
def M.bind {α β : Type} (m : M α) (f : α → M β) : M β := fun s =>
  match m s with
  | .ok a s' => f a s'
  | .fault e s' => .fault e s'

/-- Returning a value without touching the state. -/
def M.pure {α : Type} (a : α) : M α := fun s => .ok a s

instance : Monad M where
  pure := M.pure
  bind := M.bind

/-! ## `size_t` arithmetic -/

/-- Number of values of a `size_t`, `2 ^ 64`. -/
abbrev SIZE_T_RANGE : Nat := 18446744073709551616

/-- The increment `++n` on a `size_t`. -/
def size_t_inc (n : Nat) : Nat := (n + 1) % SIZE_T_RANGE

/-- The decrement `--n` on a `size_t`: adding `2 ^ 64 - 1` modulo `2 ^ 64`. -/
def size_t_dec (n : Nat) : Nat := (n + (SIZE_T_RANGE - 1)) % SIZE_T_RANGE

/-! ## Memory primitives -/

/-- Evaluate `cb->` : the block a `ControlBlockBase*` points to, with its address. -/
def deref (cb : CbPtr) : M (Nat × ControlBlockBase) := fun s =>
  match cb with
  | none => .fault .null_deref s
  | some a =>
    match s.heap[a]? with
    | some (some blk) => .ok (a, blk) s
    | _ => .fault .use_after_free s

/-- Overwrite the block at an address that holds one. -/
def store (a : Nat) (blk : ControlBlockBase) : M Unit := fun s =>
  match s.heap[a]? with
  | some (some _) => .ok () { s with heap := s.heap.set a (some blk) }
  | _ => .fault .use_after_free s

/-- Allocate storage for one control block and construct the block there; the result is the
address of the new block. -/
def allocate (blk : ControlBlockBase) : M Nat := fun s =>
  .ok s.heap.length { s with heap := s.heap ++ [some blk] }

/-- Give the storage at an address back. -/
def deallocate (a : Nat) : M Unit := fun s =>
  match s.heap[a]? with
  | some (some _) => .ok () { s with heap := s.heap.set a none }
  | _ => .fault .use_after_free s

/-- Record an effect. -/
def emit (e : Event) : M Unit := fun s =>
  .ok () { s with log := s.log ++ [e] }

/-- Read `cb->shared_count`. -/
def shared_count (cb : CbPtr) : M Nat := do
  let (_, blk) ← deref cb
  return blk.shared_count

/-- Read `cb->weak_count`. -/
def weak_count (cb : CbPtr) : M Nat := do
  let (_, blk) ← deref cb
  return blk.weak_count

/-- Read `cb->ptr`. -/
def ptr (cb : CbPtr) : M ValPtr := do
  let (_, blk) ← deref cb
  return blk.ptr

/-- The statement `++cb->shared_count`. -/
def inc_shared_count (cb : CbPtr) : M Unit := do
  let (a, blk) ← deref cb
  store a { blk with shared_count := size_t_inc blk.shared_count }

/-- The statement `--cb->shared_count`. -/
def dec_shared_count (cb : CbPtr) : M Unit := do
  let (a, blk) ← deref cb
  store a { blk with shared_count := size_t_dec blk.shared_count }

/-- The statement `++cb->weak_count`. -/
def inc_weak_count (cb : CbPtr) : M Unit := do
  let (a, blk) ← deref cb
  store a { blk with weak_count := size_t_inc blk.weak_count }

/-- The statement `--cb->weak_count`. -/
def dec_weak_count (cb : CbPtr) : M Unit := do
  let (a, blk) ← deref cb
  store a { blk with weak_count := size_t_dec blk.weak_count }

/-! ## Control blocks -/

/-- The override `ControlBlockDirect::destroy`: `del(this->ptr)`. -/
def ControlBlockDirect.destroy (this : Nat) (blk : ControlBlockBase) (del : Deleter) :
    M Unit :=
  emit (.deleter_call this del blk.ptr)

/-- The override `ControlBlockDirect::dispose`: deallocate `this` through the rebound allocator. -/
def ControlBlockDirect.dispose (this : Nat) (alloc : Alloc) : M Unit := do
  emit (.deallocate this alloc)
  deallocate this

/-- The override `ControlBlockMakeShared::destroy`:
`std::allocator_traits<Alloc>::destroy(alloc, this->ptr)`. -/
def ControlBlockMakeShared.destroy (this : Nat) (blk : ControlBlockBase) (alloc : Alloc) :
    M Unit :=
  emit (.allocator_destroy this alloc blk.ptr)

/-- The override `ControlBlockMakeShared::dispose`: deallocate `this` through the rebound allocator. -/
def ControlBlockMakeShared.dispose (this : Nat) (alloc : Alloc) : M Unit := do
  emit (.deallocate this alloc)
  deallocate this

/-- The virtual call `cb->destroy()`. -/
def destroy (cb : CbPtr) : M Unit := do
  let (this, blk) ← deref cb
  match blk.derived with
  | .ControlBlockDirect del _ => ControlBlockDirect.destroy this blk del
  | .ControlBlockMakeShared _ alloc => ControlBlockMakeShared.destroy this blk alloc

/-- The virtual call `cb->dispose()`. -/
def dispose (cb : CbPtr) : M Unit := do
  let (this, blk) ← deref cb
  match blk.derived with
  | .ControlBlockDirect _ alloc => ControlBlockDirect.dispose this alloc
  | .ControlBlockMakeShared _ alloc => ControlBlockMakeShared.dispose this alloc

/-! ## Handle objects -/

/-- Read the member `cb` of a live `SharedPtr` object. -/
def SharedPtr.cb (this : Nat) : M CbPtr := fun s =>
  match s.shared[this]? with
  | some (some p) => .ok p s
  | _ => .fault .lifetime_ended s

/-- Assign the member `cb` of a live `SharedPtr` object. -/
def SharedPtr.set_cb (this : Nat) (p : CbPtr) : M Unit := fun s =>
  match s.shared[this]? with
  | some (some _) => .ok () { s with shared := s.shared.set this (some p) }
  | _ => .fault .lifetime_ended s

/-- Start the lifetime of a `SharedPtr` object whose member `cb` is initialised to `p`. -/
def SharedPtr.begin_lifetime (p : CbPtr) : M Nat := fun s =>
  .ok s.shared.length { s with shared := s.shared ++ [some p] }

/-- End the lifetime of a live `SharedPtr` object. -/
def SharedPtr.end_lifetime (this : Nat) : M Unit := fun s =>
  match s.shared[this]? with
  | some (some _) => .ok () { s with shared := s.shared.set this none }
  | _ => .fault .lifetime_ended s

/-- Read the member `cb` of a live `WeakPtr` object. -/
def WeakPtr.cb (this : Nat) : M CbPtr := fun s =>
  match s.weak[this]? with
  | some (some p) => .ok p s
  | _ => .fault .lifetime_ended s

/-- Assign the member `cb` of a live `WeakPtr` object. -/
def WeakPtr.set_cb (this : Nat) (p : CbPtr) : M Unit := fun s =>
  match s.weak[this]? with
  | some (some _) => .ok () { s with weak := s.weak.set this (some p) }
  | _ => .fault .lifetime_ended s

/-- Start the lifetime of a `WeakPtr` object whose member `cb` is initialised to `p`. -/
def WeakPtr.begin_lifetime (p : CbPtr) : M Nat := fun s =>
  .ok s.weak.length { s with weak := s.weak ++ [some p] }

/-- End the lifetime of a live `WeakPtr` object. -/
def WeakPtr.end_lifetime (this : Nat) : M Unit := fun s =>
  match s.weak[this]? with
  | some (some _) => .ok () { s with weak := s.weak.set this none }
  | _ => .fault .lifetime_ended s

/-! ## `SharedPtr` -/

/-- The private constructor `SharedPtr(ControlBlockBase *cb) : cb(cb) { ++cb->shared_count; }`. -/
def SharedPtr.ctor_cb (cb : CbPtr) : M Nat := do
  let this ← SharedPtr.begin_lifetime cb
  inc_shared_count (← SharedPtr.cb this)
  return this

/-- The constructor `SharedPtr() : cb(nullptr) {}`. -/
def SharedPtr.ctor : M Nat :=
  SharedPtr.begin_lifetime none

/-- The constructors `SharedPtr(T* ptr)` and `SharedPtr(Y* ptr)`:
`cb(new ControlBlockDirect{ptr, 1, 0})`. -/
def SharedPtr.ctor_ptr (p : ValPtr) : M Nat := do
  let cbd ← allocate
    { shared_count := 1, weak_count := 0, ptr := p,
      derived := .ControlBlockDirect .default_delete .allocator }
  SharedPtr.begin_lifetime (some cbd)

/-- The constructors `SharedPtr(T* ptr, Deleter del)` and `SharedPtr(Y* ptr, Deleter del)`:
`cb(new ControlBlockDirect{ptr, 1, 0, del})`. -/
def SharedPtr.ctor_ptr_del (p : ValPtr) (del : Deleter) : M Nat := do
  let cbd ← allocate
    { shared_count := 1, weak_count := 0, ptr := p,
      derived := .ControlBlockDirect del .allocator }
  SharedPtr.begin_lifetime (some cbd)

/-- The constructors `SharedPtr(T* ptr, Deleter del, Alloc alloc)` and
`SharedPtr(Y* ptr, Deleter del, Alloc alloc)`: allocate through the rebound allocator,
construct `CBD(ptr, 1, 0, del, alloc)` in place, then `cb = cbd`. -/
def SharedPtr.ctor_ptr_del_alloc (p : ValPtr) (del : Deleter) (alloc : Alloc) : M Nat := do
  let cbd ← allocate
    { shared_count := 1, weak_count := 0, ptr := p,
      derived := .ControlBlockDirect del alloc }
  SharedPtr.begin_lifetime (some cbd)

/-- The copy constructor
`SharedPtr(const SharedPtr& other) : cb(other.cb) { if (cb != nullptr) ++cb->shared_count; }`. -/
def SharedPtr.ctor_copy (other : Nat) : M Nat := do
  let this ← SharedPtr.begin_lifetime (← SharedPtr.cb other)
  let cb ← SharedPtr.cb this
  if cb ≠ none then
    inc_shared_count cb
  return this

/-- The move constructor `SharedPtr(SharedPtr&& other) : cb(other.cb) { other.cb = nullptr; }`. -/
def SharedPtr.ctor_move (other : Nat) : M Nat := do
  let this ← SharedPtr.begin_lifetime (← SharedPtr.cb other)
  SharedPtr.set_cb other none
  return this

/-- The copy assignment `SharedPtr& operator=(const SharedPtr& other)`. -/
def SharedPtr.assign_copy (this other : Nat) : M Unit := do
  let cb ← SharedPtr.cb this
  if cb ≠ none then
    dec_shared_count cb
    if (← shared_count cb) = 0 then
      destroy cb
      if (← weak_count cb) = 0 then
        dispose cb
  SharedPtr.set_cb this (← SharedPtr.cb other)
  inc_shared_count (← SharedPtr.cb this)

/-- The move assignment `SharedPtr& operator=(SharedPtr &&other)`. -/
def SharedPtr.assign_move (this other : Nat) : M Unit := do
  let cb ← SharedPtr.cb this
  if cb ≠ none then
    dec_shared_count cb
    if (← shared_count cb) = 0 then
      destroy cb
      if (← weak_count cb) = 0 then
        dispose cb
  SharedPtr.set_cb this (← SharedPtr.cb other)
  SharedPtr.set_cb other none

/-- The converting copy constructor
`SharedPtr(const SharedPtr<Y> &other) : cb(reinterpret_cast<...>(other.cb)) { ++cb->shared_count; }`. -/
def SharedPtr.ctor_copy_conv (other : Nat) : M Nat := do
  let this ← SharedPtr.begin_lifetime (← SharedPtr.cb other)
  inc_shared_count (← SharedPtr.cb this)
  return this

/-- The converting copy assignment `SharedPtr& operator=(const SharedPtr<Y> &other)`. -/
def SharedPtr.assign_copy_conv (this other : Nat) : M Unit := do
  let cb ← SharedPtr.cb this
  if cb ≠ none then
    dec_shared_count cb
    if (← shared_count cb) = 0 then
      destroy cb
      if (← weak_count cb) = 0 then
        dispose cb
  SharedPtr.set_cb this (← SharedPtr.cb other)
  inc_shared_count (← SharedPtr.cb this)

/-- The converting move assignment `SharedPtr& operator=(SharedPtr<Y> &&other)`. -/
def SharedPtr.assign_move_conv (this other : Nat) : M Unit := do
  let cb ← SharedPtr.cb this
  if cb ≠ none then
    dec_shared_count cb
    if (← shared_count cb) = 0 then
      destroy cb
      if (← weak_count cb) = 0 then
        dispose cb
  SharedPtr.set_cb this (← SharedPtr.cb other)
  SharedPtr.set_cb other none

/-- The destructor `~SharedPtr()`; the object's lifetime ends after its body. -/
def SharedPtr.dtor (this : Nat) : M Unit := do
  let cb ← SharedPtr.cb this
  if cb ≠ none then
    dec_shared_count cb
    if (← shared_count cb) = 0 then
      destroy cb
      if (← weak_count cb) = 0 then
        dispose cb
  SharedPtr.end_lifetime this

/-- The operators `T& operator*()` and `const T& operator*() const`: the object `cb->ptr`
points to, given by its location. -/
def SharedPtr.operator_star (this : Nat) : M ValPtr := do
  ptr (← SharedPtr.cb this)

/-- The operators `T* operator->()` and `const T* operator->() const`: `return cb->ptr;`. -/
def SharedPtr.operator_arrow (this : Nat) : M ValPtr := do
  ptr (← SharedPtr.cb this)

/-- The member `T* get()`: `return cb == nullptr ? nullptr : cb->ptr;`. -/
def SharedPtr.get (this : Nat) : M ValPtr := do
  let cb ← SharedPtr.cb this
  if cb = none then
    return .null
  else
    ptr cb

/-- The member `const T* get() const`: `return cb->ptr;`. -/
def SharedPtr.get_const (this : Nat) : M ValPtr := do
  ptr (← SharedPtr.cb this)

/-- The member `size_t use_count() const`: `return cb->shared_count;`. -/
def SharedPtr.use_count (this : Nat) : M Nat := do
  shared_count (← SharedPtr.cb this)

/-- The member `void reset()`. -/
def SharedPtr.reset (this : Nat) : M Unit := do
  let cb ← SharedPtr.cb this
  if cb ≠ none then
    dec_shared_count cb
    if (← shared_count cb) = 0 then
      destroy cb
      if (← weak_count cb) = 0 then
        dispose cb
  SharedPtr.set_cb this none

/-- The member `void reset(Y* ptr)`. -/
def SharedPtr.reset_ptr (this : Nat) (p : ValPtr) : M Unit := do
  let cb ← SharedPtr.cb this
  if cb ≠ none then
    dec_shared_count cb
    if (← shared_count cb) = 0 then
      destroy cb
      if (← weak_count cb) = 0 then
        dispose cb
  let cbd ← allocate
    { shared_count := 1, weak_count := 0, ptr := p,
      derived := .ControlBlockDirect .default_delete .allocator }
  SharedPtr.set_cb this (some cbd)

/-- The member `void reset(Y* ptr, Deleter del, Alloc alloc)`. -/
def SharedPtr.reset_ptr_del_alloc (this : Nat) (p : ValPtr) (del : Deleter) (alloc : Alloc) :
    M Unit := do
  let cb ← SharedPtr.cb this
  if cb ≠ none then
    dec_shared_count cb
    if (← shared_count cb) = 0 then
      destroy cb
      if (← weak_count cb) = 0 then
        dispose cb
  let cbd ← allocate
    { shared_count := 1, weak_count := 0, ptr := p,
      derived := .ControlBlockDirect del alloc }
  SharedPtr.set_cb this (some cbd)

/-- The member `void swap(SharedPtr& sp)`. -/
def SharedPtr.swap (this sp : Nat) : M Unit := do
  let tmp ← SharedPtr.cb this
  SharedPtr.set_cb this (← SharedPtr.cb sp)
  SharedPtr.set_cb sp tmp

/-! ## Factories -/

/-- The function `allocateShared(const Alloc &alloc, Args&&... args)`. The parameter pack is
either empty (the object is `T()`) or one value the object is initialised from: no other
`ControlBlockMakeShared` constructor takes the trailing allocator. -/
def allocateShared (alloc : Alloc) (args : Option Nat) : M Nat := do
  let cbms ← allocate
    { shared_count := 0, weak_count := 0, ptr := .null,
      derived := .ControlBlockMakeShared
        (match args with
         | none => .value_init
         | some v => .from_arg v) alloc }
  let (a, blk) ← deref (some cbms)
  store a { blk with ptr := .object a }
  SharedPtr.ctor_cb (some cbms)

/-- The function `makeShared(Args&&... args)`:
`return allocateShared<T>(std::allocator<T>(), std::forward<Args>(args)...);`. -/
def makeShared (args : Option Nat) : M Nat :=
  allocateShared .allocator args

/-! ## `WeakPtr` -/

/-- The constructor `WeakPtr() : cb(nullptr) {}`. -/
def WeakPtr.ctor : M Nat :=
  WeakPtr.begin_lifetime none

/-- The constructors `WeakPtr(const SharedPtr<T>& sp)` and `WeakPtr(const SharedPtr<Y>& sp)`:
`cb(sp.cb) { ++cb->weak_count; }`. -/
def WeakPtr.ctor_shared (sp : Nat) : M Nat := do
  let this ← WeakPtr.begin_lifetime (← SharedPtr.cb sp)
  inc_weak_count (← WeakPtr.cb this)
  return this

/-- The assignment `WeakPtr& operator=(const SharedPtr<T>& sp)`. -/
def WeakPtr.assign_shared (this sp : Nat) : M Unit := do
  let cb ← WeakPtr.cb this
  if cb ≠ none then
    dec_weak_count cb
    if (← weak_count cb) = 0 ∧ (← shared_count cb) = 0 then
      dispose cb
  WeakPtr.set_cb this (← SharedPtr.cb sp)
  inc_weak_count (← WeakPtr.cb this)

/-- The copy constructors `WeakPtr(const WeakPtr& other)` and `WeakPtr(const WeakPtr<Y>& wp)`:
`cb(other.cb) { ++cb->weak_count; }`. -/
def WeakPtr.ctor_copy (other : Nat) : M Nat := do
  let this ← WeakPtr.begin_lifetime (← WeakPtr.cb other)
  inc_weak_count (← WeakPtr.cb this)
  return this

/-- The move constructor `WeakPtr(WeakPtr&& other) : cb(other.cb) { other.cb = nullptr; }`. -/
def WeakPtr.ctor_move (other : Nat) : M Nat := do
  let this ← WeakPtr.begin_lifetime (← WeakPtr.cb other)
  WeakPtr.set_cb other none
  return this

/-- The copy assignments `WeakPtr& operator=(const WeakPtr& other)` and
`WeakPtr& operator=(const WeakPtr<Y>& other)`. -/
def WeakPtr.assign_copy (this other : Nat) : M Unit := do
  let cb ← WeakPtr.cb this
  if cb ≠ none then
    dec_weak_count cb
    if (← weak_count cb) = 0 ∧ (← shared_count cb) = 0 then
      dispose cb
  WeakPtr.set_cb this (← WeakPtr.cb other)
  inc_weak_count (← WeakPtr.cb this)

/-- The move assignments `WeakPtr& operator=(WeakPtr&& other)` and
`WeakPtr& operator=(WeakPtr<Y>&& other)`. -/
def WeakPtr.assign_move (this other : Nat) : M Unit := do
  let cb ← WeakPtr.cb this
  if cb ≠ none then
    dec_weak_count cb
    if (← weak_count cb) = 0 ∧ (← shared_count cb) = 0 then
      dispose cb
  WeakPtr.set_cb this (← WeakPtr.cb other)
  WeakPtr.set_cb other none

/-- The destructor `~WeakPtr()`; the object's lifetime ends after its body. -/
def WeakPtr.dtor (this : Nat) : M Unit := do
  let cb ← WeakPtr.cb this
  if cb ≠ none then
    dec_weak_count cb
    if (← weak_count cb) = 0 ∧ (← shared_count cb) = 0 then
      dispose cb
  WeakPtr.end_lifetime this

/-- The member `size_t use_count() const`: `return cb->shared_count;`. -/
def WeakPtr.use_count (this : Nat) : M Nat := do
  shared_count (← WeakPtr.cb this)

/-- The member `bool expired() const`: `return this->use_count() == 0;`. -/
def WeakPtr.expired (this : Nat) : M Bool := do
  return (← WeakPtr.use_count this) == 0

/-- The member `SharedPtr<T> lock() const`: `return SharedPtr<T>(cb);`. -/
def WeakPtr.lock (this : Nat) : M Nat := do
  SharedPtr.ctor_cb (← WeakPtr.cb this)

/-! ## Closed forms of the release protocol

Every releasing member repeats the same statements. They are named here once, with the state
they lead to, so that the members can be reasoned about through them. -/

/-- The effect `cb->destroy()` has on the log, by dynamic type of the block. -/
def destroy_event (this : Nat) (blk : ControlBlockBase) : Event :=
  match blk.derived with
  | .ControlBlockDirect del _ => .deleter_call this del blk.ptr
  | .ControlBlockMakeShared _ alloc => .allocator_destroy this alloc blk.ptr

/-- The effect `cb->dispose()` has on the log, by dynamic type of the block. -/
def dispose_event (this : Nat) (blk : ControlBlockBase) : Event :=
  match blk.derived with
  | .ControlBlockDirect _ alloc => .deallocate this alloc
  | .ControlBlockMakeShared _ alloc => .deallocate this alloc

/-- The block of statements every releasing member of `SharedPtr` starts with. -/
def release_shared (cb : CbPtr) : M Unit := do
  if cb ≠ none then
    dec_shared_count cb
    if (← shared_count cb) = 0 then
      destroy cb
      if (← weak_count cb) = 0 then
        dispose cb

/-- The block of statements every releasing member of `WeakPtr` starts with. -/
def release_weak (cb : CbPtr) : M Unit := do
  if cb ≠ none then
    dec_weak_count cb
    if (← weak_count cb) = 0 ∧ (← shared_count cb) = 0 then
      dispose cb

/-- State after the owner-side release block ran on the block `blk` stored at `a`. -/
def released_shared (s : State) (a : Nat) (blk : ControlBlockBase) : State :=
  { s with
    heap := s.heap.set a
      (if size_t_dec blk.shared_count = 0 ∧ blk.weak_count = 0 then none
       else some { blk with shared_count := size_t_dec blk.shared_count }),
    log := s.log ++
      (if size_t_dec blk.shared_count = 0 then
        destroy_event a blk :: (if blk.weak_count = 0 then [dispose_event a blk] else [])
       else []) }

/-- State after the observer-side release block ran on the block `blk` stored at `a`. -/
def released_weak (s : State) (a : Nat) (blk : ControlBlockBase) : State :=
  { s with
    heap := s.heap.set a
      (if size_t_dec blk.weak_count = 0 ∧ blk.shared_count = 0 then none
       else some { blk with weak_count := size_t_dec blk.weak_count }),
    log := s.log ++
      (if size_t_dec blk.weak_count = 0 ∧ blk.shared_count = 0 then [dispose_event a blk]
       else []) }

/-! ## Programs over the public interface -/

/-- One call of a public operation. Handle objects are named by their index; a constructor
call creates the object with the next unused index of its kind. -/
inductive Op where
  | sp_ctor
  | sp_ctor_ptr (p : ValPtr)
  | sp_ctor_ptr_del (p : ValPtr) (del : Deleter)
  | sp_ctor_ptr_del_alloc (p : ValPtr) (del : Deleter) (alloc : Alloc)
  | sp_ctor_copy (other : Nat)
  | sp_ctor_move (other : Nat)
  | sp_assign_copy (this other : Nat)
  | sp_assign_move (this other : Nat)
  | sp_ctor_copy_conv (other : Nat)
  | sp_assign_copy_conv (this other : Nat)
  | sp_assign_move_conv (this other : Nat)
  | sp_dtor (this : Nat)
  | sp_operator_star (this : Nat)
  | sp_operator_arrow (this : Nat)
  | sp_get (this : Nat)
  | sp_get_const (this : Nat)
  | sp_use_count (this : Nat)
  | sp_reset (this : Nat)
  | sp_reset_ptr (this : Nat) (p : ValPtr)
  | sp_reset_ptr_del_alloc (this : Nat) (p : ValPtr) (del : Deleter) (alloc : Alloc)
  | sp_swap (this sp : Nat)
  | allocate_shared (alloc : Alloc) (args : Option Nat)
  | make_shared (args : Option Nat)
  | wp_ctor
  | wp_ctor_shared (sp : Nat)
  | wp_assign_shared (this sp : Nat)
  | wp_ctor_copy (other : Nat)
  | wp_ctor_move (other : Nat)
  | wp_assign_copy (this other : Nat)
  | wp_assign_move (this other : Nat)
  | wp_dtor (this : Nat)
  | wp_use_count (this : Nat)
  | wp_expired (this : Nat)
  | wp_lock (this : Nat)

/-- Run one operation, dropping its return value. -/
def Op.exec : Op → M Unit
  | .sp_ctor => do let _ ← SharedPtr.ctor
  | .sp_ctor_ptr p => do let _ ← SharedPtr.ctor_ptr p
  | .sp_ctor_ptr_del p del => do let _ ← SharedPtr.ctor_ptr_del p del
  | .sp_ctor_ptr_del_alloc p del alloc => do let _ ← SharedPtr.ctor_ptr_del_alloc p del alloc
  | .sp_ctor_copy other => do let _ ← SharedPtr.ctor_copy other
  | .sp_ctor_move other => do let _ ← SharedPtr.ctor_move other
  | .sp_assign_copy this other => SharedPtr.assign_copy this other
  | .sp_assign_move this other => SharedPtr.assign_move this other
  | .sp_ctor_copy_conv other => do let _ ← SharedPtr.ctor_copy_conv other
  | .sp_assign_copy_conv this other => SharedPtr.assign_copy_conv this other
  | .sp_assign_move_conv this other => SharedPtr.assign_move_conv this other
  | .sp_dtor this => SharedPtr.dtor this
  | .sp_operator_star this => do let _ ← SharedPtr.operator_star this
  | .sp_operator_arrow this => do let _ ← SharedPtr.operator_arrow this
  | .sp_get this => do let _ ← SharedPtr.get this
  | .sp_get_const this => do let _ ← SharedPtr.get_const this
  | .sp_use_count this => do let _ ← SharedPtr.use_count this
  | .sp_reset this => SharedPtr.reset this
  | .sp_reset_ptr this p => SharedPtr.reset_ptr this p
  | .sp_reset_ptr_del_alloc this p del alloc => SharedPtr.reset_ptr_del_alloc this p del alloc
  | .sp_swap this sp => SharedPtr.swap this sp
  | .allocate_shared alloc args => do let _ ← allocateShared alloc args
  | .make_shared args => do let _ ← makeShared args
  | .wp_ctor => do let _ ← WeakPtr.ctor
  | .wp_ctor_shared sp => do let _ ← WeakPtr.ctor_shared sp
  | .wp_assign_shared this sp => WeakPtr.assign_shared this sp
  | .wp_ctor_copy other => do let _ ← WeakPtr.ctor_copy other
  | .wp_ctor_move other => do let _ ← WeakPtr.ctor_move other
  | .wp_assign_copy this other => WeakPtr.assign_copy this other
  | .wp_assign_move this other => WeakPtr.assign_move this other
  | .wp_dtor this => WeakPtr.dtor this
  | .wp_use_count this => do let _ ← WeakPtr.use_count this
  | .wp_expired this => do let _ ← WeakPtr.expired this
  | .wp_lock this => do let _ ← WeakPtr.lock this

/-- Run a program, one operation after the other, stopping at the first fault. -/
def run : List Op → M Unit
  | [] => pure ()
  | op :: ops => do
    op.exec
    run ops

/-- Number of live `SharedPtr` objects whose `cb` is the block at address `b`. -/
def live_owners (s : State) (b : Nat) : Nat :=
  s.shared.count (some (some b))

/-- Number of live `WeakPtr` objects whose `cb` is the block at address `b`. -/
def live_observers (s : State) (b : Nat) : Nat :=
  s.weak.count (some (some b))

/-- An event is a run of `destroy()` on the block at address `b`. -/
def Event.is_destroy (b : Nat) : Event → Bool
  | .deleter_call this _ _ => this == b
  | .allocator_destroy this _ _ => this == b
  | .deallocate _ _ => false

/-- An event is a run of `dispose()` on the block at address `b`. -/
def Event.is_dispose (b : Nat) : Event → Bool
  | .deleter_call _ _ _ => false
  | .allocator_destroy _ _ _ => false
  | .deallocate this _ => this == b

/-! ## Count accuracy -/

/-- A slot of the heap agrees with a number of referencing handles: an allocated block stores
that number in the field read by `get`; storage that is not allocated is referenced by none. -/
def count_ok (get : ControlBlockBase → Nat) (slot : Option (Option ControlBlockBase))
    (n : Nat) : Prop :=
  match slot with
  | some (some blk) => get blk = n
  | _ => n = 0

/-- Count accuracy of a heap against the lists of handle objects: at every address the shared
count is the number of live `SharedPtr` objects on the block and the weak count the number of
live `WeakPtr` objects on it, and no live handle references storage that is not allocated. -/
def Acc (heap : List (Option ControlBlockBase)) (shared weak : List (Option CbPtr)) : Prop :=
  ∀ b, count_ok (fun blk => blk.shared_count) heap[b]? (shared.count (some (some b))) ∧
       count_ok (fun blk => blk.weak_count) heap[b]? (weak.count (some (some b)))

/-- Count accuracy of a state. -/
def Accurate (s : State) : Prop :=
  Acc s.heap s.shared s.weak

/-- The invariant carried along a program: count accuracy, and at most `n` handle objects of
each kind were ever created. -/
def Inv (s : State) (n : Nat) : Prop :=
  Accurate s ∧ s.shared.length ≤ n ∧ s.weak.length ≤ n

/-! ## A concrete state -/

/-- A block with one owner and no observer. -/
def demo_block_a : ControlBlockBase :=
  { shared_count := 1, weak_count := 0, ptr := .raw 10,
    derived := .ControlBlockDirect (.custom 3) .allocator }

/-- A block with two owners and one observer. -/
def demo_block_b : ControlBlockBase :=
  { shared_count := 2, weak_count := 1, ptr := .object 1,
    derived := .ControlBlockMakeShared (.from_arg 5) .allocator }

/-- A state with two blocks: block 0 is owned by handle 1, block 1 by handles 0 and 2 and has
one observer. -/
def demo_state : State :=
  { heap := [some demo_block_a, some demo_block_b],
    shared := [some (some 1), some (some 0), some (some 1)],
    weak := [some (some 1)],
    log := [] }

/-- The state `demo_state` with one more owning handle, which is empty. -/
def demo_state_with_empty : State :=
  { demo_state with shared := demo_state.shared ++ [some none] }

/-- The block of the state `sole_owner_state`. -/
def sole_owner_block : ControlBlockBase :=
  { shared_count := 1, weak_count := 0, ptr := .raw 7,
    derived := .ControlBlockDirect .default_delete .allocator }

/-- The state after `SharedPtr<T> a(p);` run in the empty state: one block, one owner, no other
handle. -/
def sole_owner_state : State :=
  { heap := [some sole_owner_block], shared := [some (some 0)], weak := [], log := [] }

/-- The block of the state `expired_state`. -/
def expired_block : ControlBlockBase :=
  { shared_count := 0, weak_count := 1, ptr := .raw 7,
    derived := .ControlBlockDirect .default_delete .allocator }

/-- The state after `SharedPtr<T> a(p); WeakPtr<T> w(a);` and the destructor of `a`, run in
the empty state: the value is destroyed, one observer is left and no live owner. -/
def expired_state : State :=
  { heap := [some expired_block], shared := [none], weak := [some (some 0)],
    log := [.deleter_call 0 .default_delete (.raw 7)] }

/-- The state in which `SharedPtr<T> a(p); a = a;`, run in the empty state, stops: the block is
deallocated and `a` is a live handle that still holds its address. -/
def dangling_owner_state : State :=
  { heap := [none], shared := [some (some 0)], weak := [],
    log := [.deleter_call 0 .default_delete (.raw 7), .deallocate 0 .allocator] }

/-! ## Reasoning principles for `M` -/

@[simp] theorem M.bind_apply {α β : Type} (m : M α) (f : α → M β) (s : State) :
    (m >>= f) s = match m s with
      | .ok a s' => f a s'
      | .fault e s' => .fault e s' := rfl

@[simp] theorem M.pure_apply {α : Type} (a : α) (s : State) :
    @Pure.pure M _ α a s = .ok a s := rfl

theorem size_t_inc_of_lt {n : Nat} (h : n + 1 < SIZE_T_RANGE) : size_t_inc n = n + 1 := by
  unfold size_t_inc
  exact Nat.mod_eq_of_lt h

theorem size_t_dec_of_pos {n : Nat} (h0 : 0 < n) (h : n < SIZE_T_RANGE) :
    size_t_dec n = n - 1 := by
  have h' : n < 18446744073709551616 := h
  show (n + (18446744073709551616 - 1)) % 18446744073709551616 = n - 1
  omega

@[simp] theorem size_t_inc_zero : size_t_inc 0 = 1 := by decide

@[simp] theorem size_t_dec_one : size_t_dec 1 = 0 := by decide

theorem size_t_dec_inc {n : Nat} (h : n < SIZE_T_RANGE) : size_t_inc (size_t_dec n) = n := by
  have h' : n < 18446744073709551616 := h
  show ((n + (18446744073709551616 - 1)) % 18446744073709551616 + 1) % 18446744073709551616 = n
  omega

theorem lt_length_of_getElem?_eq_some {α : Type} {l : List α} {i : Nat} {x : α}
    (h : l[i]? = some x) : i < l.length := by
  by_contra hn
  rw [List.getElem?_eq_none (by omega)] at h
  cases h

theorem M.bind_assoc {α β γ : Type} (x : M α) (f : α → M β) (g : β → M γ) :
    x >>= f >>= g = x >>= fun a => f a >>= g := by
  funext s
  show (match (match x s with
      | .ok a s' => f a s'
      | .fault e s' => Res.fault e s') with
    | .ok b s' => g b s'
    | .fault e s' => Res.fault e s') =
    (match x s with
    | .ok a s' => (match f a s' with
      | .ok b s'' => g b s''
      | .fault e s'' => Res.fault e s'')
    | .fault e s' => Res.fault e s')
  cases x s <;> rfl

theorem M.pure_bind {α β : Type} (a : α) (f : α → M β) : pure a >>= f = f a := rfl

theorem M.ite_bind {α β : Type} (c : Prop) [Decidable c] (a b : M α) (k : α → M β) :
    (if c then a else b) >>= k = if c then a >>= k else b >>= k := by
  split <;> rfl

theorem SharedPtr.dtor_eq (this : Nat) :
    SharedPtr.dtor this = (do
      let cb ← SharedPtr.cb this
      release_shared cb
      SharedPtr.end_lifetime this) := by
  simp only [SharedPtr.dtor, release_shared, M.bind_assoc, M.pure_bind, M.ite_bind]

theorem SharedPtr.assign_copy_eq (this other : Nat) :
    SharedPtr.assign_copy this other = (do
      let cb ← SharedPtr.cb this
      release_shared cb
      SharedPtr.set_cb this (← SharedPtr.cb other)
      inc_shared_count (← SharedPtr.cb this)) := by
  simp only [SharedPtr.assign_copy, release_shared, M.bind_assoc, M.pure_bind, M.ite_bind]

theorem release_shared_none (s : State) : release_shared none s = .ok () s := by
  simp [release_shared]

theorem release_shared_some (s : State) (a : Nat) (blk : ControlBlockBase)
    (h : s.heap[a]? = some (some blk)) :
    release_shared (some a) s = .ok () (released_shared s a blk) := by
  have ha := lt_length_of_getElem?_eq_some h
  cases hd : blk.derived <;>
  by_cases h0 : size_t_dec blk.shared_count = 0 <;>
  by_cases hw : blk.weak_count = 0 <;>
  simp [release_shared, released_shared, dec_shared_count, shared_count, weak_count, destroy,
    dispose, deref, store, emit, deallocate, ControlBlockDirect.destroy,
    ControlBlockDirect.dispose, ControlBlockMakeShared.destroy, ControlBlockMakeShared.dispose,
    destroy_event, dispose_event, h, hd, h0, hw, ha]

theorem release_shared_dangling (s : State) (a : Nat)
    (h : ∀ blk, s.heap[a]? ≠ some (some blk)) :
    release_shared (some a) s = .fault .use_after_free s := by
  have : ∀ o, s.heap[a]? = o → release_shared (some a) s = .fault .use_after_free s := by
    intro o ho
    match o, ho with
    | none, ho => simp [release_shared, dec_shared_count, deref, ho]
    | some none, ho => simp [release_shared, dec_shared_count, deref, ho]
    | some (some blk), ho => exact absurd ho (h blk)
  exact this _ rfl

theorem release_weak_none (s : State) : release_weak none s = .ok () s := by
  simp [release_weak]

theorem release_weak_some (s : State) (a : Nat) (blk : ControlBlockBase)
    (h : s.heap[a]? = some (some blk)) :
    release_weak (some a) s = .ok () (released_weak s a blk) := by
  have ha := lt_length_of_getElem?_eq_some h
  cases hd : blk.derived <;>
  by_cases h0 : size_t_dec blk.weak_count = 0 <;>
  by_cases hw : blk.shared_count = 0 <;>
  simp [release_weak, released_weak, dec_weak_count, shared_count, weak_count,
    dispose, deref, store, emit, deallocate,
    ControlBlockDirect.dispose, ControlBlockMakeShared.dispose,
    dispose_event, h, hd, h0, hw, ha]

theorem release_weak_dangling (s : State) (a : Nat)
    (h : ∀ blk, s.heap[a]? ≠ some (some blk)) :
    release_weak (some a) s = .fault .use_after_free s := by
  have : ∀ o, s.heap[a]? = o → release_weak (some a) s = .fault .use_after_free s := by
    intro o ho
    match o, ho with
    | none, ho => simp [release_weak, dec_weak_count, deref, ho]
    | some none, ho => simp [release_weak, dec_weak_count, deref, ho]
    | some (some blk), ho => exact absurd ho (h blk)
  exact this _ rfl

/-! ## `WeakPtr::lock` -/

theorem WeakPtr.lock_spec (s : State) (w b : Nat) (blk : ControlBlockBase)
    (hw : s.weak[w]? = some (some (some b))) (hb : s.heap[b]? = some (some blk)) :
    WeakPtr.lock w s = .ok s.shared.length
      { s with
        heap := s.heap.set b (some { blk with shared_count := size_t_inc blk.shared_count }),
        shared := s.shared ++ [some (some b)] } := by
  simp [WeakPtr.lock, WeakPtr.cb, SharedPtr.ctor_cb, SharedPtr.begin_lifetime, SharedPtr.cb,
    inc_shared_count, deref, store, hw, hb]


/-- C1, the code at the failing input: an owner of the value at `raw 7` is created, observed
by a `WeakPtr` and dropped, so the deleter has run and the shared count is 0. `lock()` on the
surviving observer then returns a handle that holds the block (not an empty one) and whose
`use_count()` is 1: the count of the destroyed value went from 0 back to 1. -/
theorem C1_lock_on_expired_block_returns_owner :
    (do
      let a ← SharedPtr.ctor_ptr (.raw 7)
      let w ← WeakPtr.ctor_shared a
      SharedPtr.dtor a
      let h ← WeakPtr.lock w
      return (← SharedPtr.cb h, ← SharedPtr.use_count h) : M (CbPtr × Nat)) State.empty
    = .ok (some 0, 1)
        { heap := [some { shared_count := 1, weak_count := 1, ptr := .raw 7,
                          derived := .ControlBlockDirect .default_delete .allocator }],
          shared := [none, some (some 0)],
          weak := [some (some 0)],
          log := [.deleter_call 0 .default_delete (.raw 7)] } := by
  decide

/-! ## Copy assignment between handles on the same block -/

/-- C2, the code at the failing input: `a` is the only owner of its block (shared count 1) and
is assigned to itself. Without an observer the assignment runs the deleter, deallocates the
block and then increments the count inside the freed storage, `a` still holding the block.
With an observer on the block the assignment runs the deleter and leaves the count at 1. -/
theorem C2_self_assignment_of_sole_owner_destroys :
    (do
      let a ← SharedPtr.ctor_ptr (.raw 7)
      SharedPtr.assign_copy a a : M Unit) State.empty
    = .fault .use_after_free
        { heap := [none],
          shared := [some (some 0)],
          weak := [],
          log := [.deleter_call 0 .default_delete (.raw 7), .deallocate 0 .allocator] }
    ∧
    (do
      let a ← SharedPtr.ctor_ptr (.raw 7)
      let _ ← WeakPtr.ctor_shared a
      SharedPtr.assign_copy a a : M Unit) State.empty
    = .ok ()
        { heap := [some { shared_count := 1, weak_count := 1, ptr := .raw 7,
                          derived := .ControlBlockDirect .default_delete .allocator }],
          shared := [some (some 0)],
          weak := [some (some 0)],
          log := [.deleter_call 0 .default_delete (.raw 7)] } := by
  decide

/-! ## Programs that end with no handle left -/

/-- C3, the code at the failing input. The program `SharedPtr a(p); SharedPtr b(a); b.~SharedPtr();
a = a;` consists of a construction, a copy, a drop and a copy assignment of owners of one
block; the copy assignment runs the deleter although `a` stays a live owner of the block, and
then writes into the deallocated block. With an observer keeping the storage alive,
`a = a; a.~SharedPtr();` is defined throughout and runs the deleter twice. -/
theorem C3_destroy_runs_before_last_release_and_twice :
    run [.sp_ctor_ptr (.raw 7), .sp_ctor_copy 0, .sp_dtor 1, .sp_assign_copy 0 0] State.empty
    = .fault .use_after_free
        { heap := [none],
          shared := [some (some 0), none],
          weak := [],
          log := [.deleter_call 0 .default_delete (.raw 7), .deallocate 0 .allocator] }
    ∧
    run [.sp_ctor_ptr (.raw 7), .wp_ctor_shared 0, .sp_assign_copy 0 0, .sp_dtor 0] State.empty
    = .ok ()
        { heap := [some { shared_count := 0, weak_count := 1, ptr := .raw 7,
                          derived := .ControlBlockDirect .default_delete .allocator }],
          shared := [none],
          weak := [some (some 0)],
          log := [.deleter_call 0 .default_delete (.raw 7),
                  .deleter_call 0 .default_delete (.raw 7)] } := by
  decide!

/-- C4, the code at the failing input. After `makeShared`, the self-assignment `a = a` of
the only owner runs `dispose()` (the `deallocate` event) although `a` still references the
block, and then writes into the freed storage. Likewise, once the owner is gone, the
self-assignment `w = w` of the only observer deallocates the block `w` keeps referencing. -/
theorem C4_dispose_runs_while_a_handle_references_the_block :
    run [.make_shared (some 42), .sp_assign_copy 0 0] State.empty
    = .fault .use_after_free
        { heap := [none],
          shared := [some (some 0)],
          weak := [],
          log := [.allocator_destroy 0 .allocator (.object 0), .deallocate 0 .allocator] }
    ∧
    run [.sp_ctor_ptr (.raw 7), .wp_ctor_shared 0, .sp_dtor 0, .wp_assign_copy 0 0] State.empty
    = .fault .use_after_free
        { heap := [none],
          shared := [none],
          weak := [some (some 0)],
          log := [.deleter_call 0 .default_delete (.raw 7), .deallocate 0 .allocator] } := by
  decide!

/-! ## Move construction and move assignment -/

theorem SharedPtr.assign_move_eq (this other : Nat) :
    SharedPtr.assign_move this other = (do
      let cb ← SharedPtr.cb this
      release_shared cb
      SharedPtr.set_cb this (← SharedPtr.cb other)
      SharedPtr.set_cb other none) := by
  simp only [SharedPtr.assign_move, release_shared, M.bind_assoc, M.pure_bind, M.ite_bind]

theorem SharedPtr.ctor_move_spec (st : State) (s : Nat) (c : CbPtr)
    (hs : st.shared[s]? = some (some c)) :
    SharedPtr.ctor_move s st = .ok st.shared.length
      { st with shared := (st.shared ++ [some c]).set s (some none) } := by
  have hlt := lt_length_of_getElem?_eq_some hs
  simp [SharedPtr.ctor_move, SharedPtr.cb, SharedPtr.begin_lifetime, SharedPtr.set_cb, hs,
    List.getElem?_append_left hlt]

theorem SharedPtr.use_count_spec (st : State) (h b : Nat) (blk : ControlBlockBase)
    (hh : st.shared[h]? = some (some (some b))) (hb : st.heap[b]? = some (some blk)) :
    SharedPtr.use_count h st = .ok blk.shared_count st := by
  simp [SharedPtr.use_count, SharedPtr.cb, shared_count, deref, hh, hb]

theorem SharedPtr.use_count_empty (st : State) (h : Nat)
    (hh : st.shared[h]? = some (some none)) :
    SharedPtr.use_count h st = .fault .null_deref st := by
  simp [SharedPtr.use_count, SharedPtr.cb, shared_count, deref, hh]

theorem SharedPtr.get_spec (st : State) (h b : Nat) (blk : ControlBlockBase)
    (hh : st.shared[h]? = some (some (some b))) (hb : st.heap[b]? = some (some blk)) :
    SharedPtr.get h st = .ok blk.ptr st := by
  simp [SharedPtr.get, SharedPtr.cb, ptr, deref, hh, hb]

theorem SharedPtr.get_empty (st : State) (h : Nat)
    (hh : st.shared[h]? = some (some none)) :
    SharedPtr.get h st = .ok .null st := by
  simp [SharedPtr.get, SharedPtr.cb, hh]

theorem SharedPtr.get_const_spec (st : State) (h b : Nat) (blk : ControlBlockBase)
    (hh : st.shared[h]? = some (some (some b))) (hb : st.heap[b]? = some (some blk)) :
    SharedPtr.get_const h st = .ok blk.ptr st := by
  simp [SharedPtr.get_const, SharedPtr.cb, ptr, deref, hh, hb]

theorem SharedPtr.get_const_empty (st : State) (h : Nat)
    (hh : st.shared[h]? = some (some none)) :
    SharedPtr.get_const h st = .fault .null_deref st := by
  simp [SharedPtr.get_const, SharedPtr.cb, ptr, deref, hh]

/-- C7, counterexample: after `SharedPtr<T> s(p); SharedPtr<T> d(std::move(s));` the query
`s.use_count()` does not return 0: it evaluates `cb->shared_count` with `cb == nullptr`. -/
theorem C7_use_count_of_moved_from_handle_faults :
    (do
      let s ← SharedPtr.ctor_ptr (.raw 7)
      let _ ← SharedPtr.ctor_move s
      SharedPtr.use_count s : M Nat) State.empty
    = .fault .null_deref
        { heap := [some { shared_count := 1, weak_count := 0, ptr := .raw 7,
                          derived := .ControlBlockDirect .default_delete .allocator }],
          shared := [some none, some (some 0)],
          weak := [],
          log := [] } := by
  decide

/-- C7 as amended: let `s` be a live handle on an allocated block with shared count 1. After
move construction of `d` from `s`, `d.use_count()` is 1 and `s` is empty: its `cb` is null and
`s.get()` returns the null pointer. The query `s.use_count()` is outside its contract there:
it dereferences the null `cb`. -/
theorem C7_move_constructed_handle_has_count_one (st : State) (s b : Nat)
    (blk : ControlBlockBase)
    (hs : st.shared[s]? = some (some (some b)))
    (hb : st.heap[b]? = some (some blk))
    (h1 : blk.shared_count = 1) :
    ∃ st', SharedPtr.ctor_move s st = .ok st.shared.length st' ∧
      SharedPtr.use_count st.shared.length st' = .ok 1 st' ∧
      SharedPtr.cb s st' = .ok none st' ∧
      SharedPtr.get s st' = .ok .null st' ∧
      SharedPtr.use_count s st' = .fault .null_deref st' := by
  have hsl := lt_length_of_getElem?_eq_some hs
  refine ⟨_, SharedPtr.ctor_move_spec st s (some b) hs, ?_, ?_, ?_, ?_⟩
  · simp [SharedPtr.use_count, SharedPtr.cb, shared_count, deref, hb, h1,
      List.getElem?_set_ne (Nat.ne_of_lt hsl)]
  · simp [SharedPtr.cb, List.getElem?_append_left, hsl]
  · apply SharedPtr.get_empty
    simp [List.getElem?_append_left, hsl]
  · apply SharedPtr.use_count_empty
    simp [List.getElem?_append_left, hsl]

theorem C7_witness :
    ∃ st', SharedPtr.ctor_move 1 demo_state = .ok 3 st' ∧
      SharedPtr.use_count 3 st' = .ok 1 st' ∧
      SharedPtr.cb 1 st' = .ok none st' ∧
      SharedPtr.get 1 st' = .ok .null st' ∧
      SharedPtr.use_count 1 st' = .fault .null_deref st' :=
  C7_move_constructed_handle_has_count_one demo_state 1 0 demo_block_a (by decide) (by decide)
    (by decide)

/-- C8, the code at the failing input: on a default-constructed (empty) handle the non-const
`get()` returns the null pointer, while the const overload evaluates `cb->ptr` with
`cb == nullptr`. -/
theorem C8_get_const_on_empty_handle_faults :
    (do
      let h ← SharedPtr.ctor
      SharedPtr.get h : M ValPtr) State.empty
    = .ok .null { heap := [], shared := [some none], weak := [], log := [] }
    ∧
    (do
      let h ← SharedPtr.ctor
      SharedPtr.get_const h : M ValPtr) State.empty
    = .fault .null_deref { heap := [], shared := [some none], weak := [], log := [] } := by
  decide

/-! ## Construction with a deleter, and the factories -/

theorem SharedPtr.dtor_spec (st : State) (h a : Nat) (blk : ControlBlockBase)
    (hh : st.shared[h]? = some (some (some a))) (ha : st.heap[a]? = some (some blk)) :
    SharedPtr.dtor h st = .ok ()
      { released_shared st a blk with shared := st.shared.set h none } := by
  simp [SharedPtr.dtor_eq, SharedPtr.cb, SharedPtr.end_lifetime, release_shared_some _ _ _ ha,
    released_shared, hh]

theorem SharedPtr.ctor_ptr_del_alloc_spec (st : State) (p : ValPtr) (del : Deleter)
    (alloc : Alloc) :
    SharedPtr.ctor_ptr_del_alloc p del alloc st = .ok st.shared.length
      { st with
        heap := st.heap ++ [some { shared_count := 1, weak_count := 0, ptr := p,
                                   derived := .ControlBlockDirect del alloc }],
        shared := st.shared ++ [some (some st.heap.length)] } := rfl

theorem SharedPtr.ctor_ptr_del_spec (st : State) (p : ValPtr) (del : Deleter) :
    SharedPtr.ctor_ptr_del p del st = .ok st.shared.length
      { st with
        heap := st.heap ++ [some { shared_count := 1, weak_count := 0, ptr := p,
                                   derived := .ControlBlockDirect del .allocator }],
        shared := st.shared ++ [some (some st.heap.length)] } := rfl

/-- C9: in any state, for any raw pointer `p`, deleter `del` and allocator `alloc`:
`SharedPtr(p, del)` and `SharedPtr(p, del, alloc)` create a block that stores `p` and `del`
with shared count 1; dropping that handle right away appends to the log exactly one call
`del(p)` followed by the deallocation of the block, and nothing else. -/
theorem C9_custom_deleter_runs_once_with_original_pointer (st : State) (p : ValPtr)
    (del : Deleter) (alloc : Alloc) :
    SharedPtr.ctor_ptr_del p del st = .ok st.shared.length
      { st with
        heap := st.heap ++ [some { shared_count := 1, weak_count := 0, ptr := p,
                                   derived := .ControlBlockDirect del .allocator }],
        shared := st.shared ++ [some (some st.heap.length)] }
    ∧
    (do
      let h ← SharedPtr.ctor_ptr_del p del
      SharedPtr.dtor h : M Unit) st
    = .ok ()
      { st with
        heap := st.heap ++ [none],
        shared := st.shared ++ [none],
        log := st.log ++ [.deleter_call st.heap.length del p,
                          .deallocate st.heap.length .allocator] }
    ∧
    SharedPtr.ctor_ptr_del_alloc p del alloc st = .ok st.shared.length
      { st with
        heap := st.heap ++ [some { shared_count := 1, weak_count := 0, ptr := p,
                                   derived := .ControlBlockDirect del alloc }],
        shared := st.shared ++ [some (some st.heap.length)] }
    ∧
    (do
      let h ← SharedPtr.ctor_ptr_del_alloc p del alloc
      SharedPtr.dtor h : M Unit) st
    = .ok ()
      { st with
        heap := st.heap ++ [none],
        shared := st.shared ++ [none],
        log := st.log ++ [.deleter_call st.heap.length del p,
                          .deallocate st.heap.length alloc] } := by
  refine ⟨rfl, ?_, rfl, ?_⟩
  · rw [M.bind_apply, SharedPtr.ctor_ptr_del_spec]
    simp only []
    rw [SharedPtr.dtor_spec _ _ st.heap.length
      ⟨1, 0, p, .ControlBlockDirect del .allocator⟩ (by simp) (by simp)]
    simp [released_shared, destroy_event, dispose_event]
  · rw [M.bind_apply, SharedPtr.ctor_ptr_del_alloc_spec]
    simp only []
    rw [SharedPtr.dtor_spec _ _ st.heap.length
      ⟨1, 0, p, .ControlBlockDirect del alloc⟩ (by simp) (by simp)]
    simp [released_shared, destroy_event, dispose_event]

theorem allocateShared_spec (st : State) (alloc : Alloc) (args : Option Nat) :
    allocateShared alloc args st = .ok st.shared.length
      { st with
        heap := st.heap ++ [some { shared_count := 1, weak_count := 0,
                                   ptr := .object st.heap.length,
                                   derived := .ControlBlockMakeShared
                                     (match args with
                                      | none => .value_init
                                      | some v => .from_arg v) alloc }],
        shared := st.shared ++ [some (some st.heap.length)] } := by
  simp [allocateShared, allocate, deref, store, SharedPtr.ctor_cb, SharedPtr.begin_lifetime,
    SharedPtr.cb, inc_shared_count]

/-- C10: in any state, for any allocator and either form of the argument pack,
`allocateShared` returns a new handle on a new `ControlBlockMakeShared` block with shared
count 1 and weak count 0 whose `ptr` is the address of the block's own `object`; `get()` on the
returned handle is that address; `makeShared` is `allocateShared` with `std::allocator`. -/
theorem C10_allocateShared_creates_colocated_block_with_count_one (st : State) (alloc : Alloc)
    (args : Option Nat) :
    allocateShared alloc args st = .ok st.shared.length
      { st with
        heap := st.heap ++ [some { shared_count := 1, weak_count := 0,
                                   ptr := .object st.heap.length,
                                   derived := .ControlBlockMakeShared
                                     (match args with
                                      | none => .value_init
                                      | some v => .from_arg v) alloc }],
        shared := st.shared ++ [some (some st.heap.length)] }
    ∧
    (do
      let h ← allocateShared alloc args
      return (← SharedPtr.get h, ← SharedPtr.use_count h) : M (ValPtr × Nat)) st
    = .ok (.object st.heap.length, 1)
      { st with
        heap := st.heap ++ [some { shared_count := 1, weak_count := 0,
                                   ptr := .object st.heap.length,
                                   derived := .ControlBlockMakeShared
                                     (match args with
                                      | none => .value_init
                                      | some v => .from_arg v) alloc }],
        shared := st.shared ++ [some (some st.heap.length)] }
    ∧
    makeShared args st = allocateShared .allocator args st := by
  refine ⟨allocateShared_spec st alloc args, ?_, rfl⟩
  rw [M.bind_apply, allocateShared_spec]
  simp [SharedPtr.get, SharedPtr.use_count, SharedPtr.cb, ptr, shared_count, deref]

/-! ## `SharedPtr::swap` -/

theorem set_eq_self_of_getElem? {α : Type} {l : List α} {i : Nat} {x : α}
    (h : l[i]? = some x) : l.set i x = l := by
  apply List.ext_getElem?
  intro n
  rw [List.getElem?_set]
  by_cases hin : i = n
  · subst hin
    simp [lt_length_of_getElem?_eq_some h, h]
  · simp [hin]

theorem SharedPtr.swap_spec (st : State) (a b : Nat) (ca cb : CbPtr)
    (ha : st.shared[a]? = some (some ca)) (hb : st.shared[b]? = some (some cb)) :
    SharedPtr.swap a b st = .ok ()
      { st with shared := (st.shared.set a (some cb)).set b (some ca) } := by
  have hal := lt_length_of_getElem?_eq_some ha
  have hbl := lt_length_of_getElem?_eq_some hb
  by_cases hab : a = b
  · subst hab
    simp [SharedPtr.swap, SharedPtr.cb, SharedPtr.set_cb, ha, hal]
  · simp [SharedPtr.swap, SharedPtr.cb, SharedPtr.set_cb, ha, hb, hal, hbl,
      List.getElem?_set_ne hab]

theorem swap_lists_twice {l : List (Option CbPtr)} {a b : Nat} {x y : Option CbPtr}
    (ha : l[a]? = some x) (hb : l[b]? = some y) :
    (((l.set a y).set b x).set a x).set b y = l := by
  have hal := lt_length_of_getElem?_eq_some ha
  have hbl := lt_length_of_getElem?_eq_some hb
  apply List.ext_getElem?
  intro n
  by_cases hbn : b = n
  · subst hbn
    simp [hbl, hb]
  · rw [List.getElem?_set_ne hbn]
    by_cases han : a = n
    · subst han
      simp [hal, ha]
    · rw [List.getElem?_set_ne han, List.getElem?_set_ne hbn, List.getElem?_set_ne han]

/-- C11: for any two live owning handles `a` and `b` (empty or not, on the same block or not,
possibly the same object), `a.swap(b)` succeeds, leaves `a` holding what `b` held and `b`
holding what `a` held, and changes nothing else: the heap (hence every shared and weak count),
the observers and the log (no `destroy()`, no `dispose()`) are the same. Swapping a second time
gives back the state before the first swap. -/
theorem C11_swap_exchanges_blocks_and_touches_no_count (st : State) (a b : Nat) (ca cb : CbPtr)
    (ha : st.shared[a]? = some (some ca)) (hb : st.shared[b]? = some (some cb)) :
    ∃ st', SharedPtr.swap a b st = .ok () st' ∧
      st'.shared[a]? = some (some cb) ∧
      st'.shared[b]? = some (some ca) ∧
      (∀ i, i ≠ a → i ≠ b → st'.shared[i]? = st.shared[i]?) ∧
      st'.heap = st.heap ∧ st'.weak = st.weak ∧ st'.log = st.log ∧
      SharedPtr.swap a b st' = .ok () st := by
  have hal := lt_length_of_getElem?_eq_some ha
  have hbl := lt_length_of_getElem?_eq_some hb
  have ha' : ((st.shared.set a (some cb)).set b (some ca))[a]? = some (some cb) := by
    by_cases hab : a = b
    · subst hab
      rw [ha] at hb
      simp only [Option.some.injEq] at hb
      subst hb
      simp [hal]
    · rw [List.getElem?_set_ne (Ne.symm hab)]
      simp [hal]
  have hb' : ((st.shared.set a (some cb)).set b (some ca))[b]? = some (some ca) := by
    simp [hbl]
  refine ⟨_, SharedPtr.swap_spec st a b ca cb ha hb, ha', hb', ?_, rfl, rfl, rfl, ?_⟩
  · intro i hia hib
    show ((st.shared.set a (some cb)).set b (some ca))[i]? = st.shared[i]?
    rw [List.getElem?_set_ne (Ne.symm hib), List.getElem?_set_ne (Ne.symm hia)]
  · rw [SharedPtr.swap_spec _ a b cb ca ha' hb']
    show Res.ok () { st with shared := _ } = Res.ok () st
    rw [swap_lists_twice ha hb]

theorem C11_witness :
    ∃ st', SharedPtr.swap 0 1 demo_state = .ok () st' ∧
      st'.shared[0]? = some (some (some 0)) ∧
      st'.shared[1]? = some (some (some 1)) ∧
      (∀ i, i ≠ 0 → i ≠ 1 → st'.shared[i]? = demo_state.shared[i]?) ∧
      st'.heap = demo_state.heap ∧ st'.weak = demo_state.weak ∧ st'.log = demo_state.log ∧
      SharedPtr.swap 0 1 st' = .ok () demo_state :=
  C11_swap_exchanges_blocks_and_touches_no_count demo_state 0 1 (some 1) (some 0)
    (by decide) (by decide)

/-! ## The destructor and `reset` -/

theorem released_shared_of_pos (st : State) (a : Nat) (blk : ControlBlockBase)
    (hpos : 0 < blk.shared_count) (hlt : blk.shared_count < SIZE_T_RANGE) :
    released_shared st a blk =
      { st with
        heap := st.heap.set a
          (if blk.shared_count = 1 ∧ blk.weak_count = 0 then none
           else some { blk with shared_count := blk.shared_count - 1 }),
        log := st.log ++
          (if blk.shared_count = 1 then
            destroy_event a blk :: (if blk.weak_count = 0 then [dispose_event a blk] else [])
           else []) } := by
  have hdec := size_t_dec_of_pos hpos hlt
  have h1 : blk.shared_count - 1 = 0 ↔ blk.shared_count = 1 := by omega
  simp only [released_shared, hdec, h1]

theorem SharedPtr.reset_eq (this : Nat) :
    SharedPtr.reset this = (do
      let cb ← SharedPtr.cb this
      release_shared cb
      SharedPtr.set_cb this none) := by
  simp only [SharedPtr.reset, release_shared, M.bind_assoc, M.pure_bind, M.ite_bind]

theorem SharedPtr.reset_ptr_eq (this : Nat) (p : ValPtr) :
    SharedPtr.reset_ptr this p = (do
      let cb ← SharedPtr.cb this
      release_shared cb
      let cbd ← allocate
        { shared_count := 1, weak_count := 0, ptr := p,
          derived := .ControlBlockDirect .default_delete .allocator }
      SharedPtr.set_cb this (some cbd)) := by
  simp only [SharedPtr.reset_ptr, release_shared, M.bind_assoc, M.pure_bind, M.ite_bind]

theorem SharedPtr.reset_ptr_del_alloc_eq (this : Nat) (p : ValPtr) (del : Deleter)
    (alloc : Alloc) :
    SharedPtr.reset_ptr_del_alloc this p del alloc = (do
      let cb ← SharedPtr.cb this
      release_shared cb
      let cbd ← allocate
        { shared_count := 1, weak_count := 0, ptr := p,
          derived := .ControlBlockDirect del alloc }
      SharedPtr.set_cb this (some cbd)) := by
  simp only [SharedPtr.reset_ptr_del_alloc, release_shared, M.bind_assoc, M.pure_bind,
    M.ite_bind]

theorem SharedPtr.reset_ptr_del_alloc_spec (st : State) (h a : Nat) (blk : ControlBlockBase)
    (p : ValPtr) (del : Deleter) (alloc : Alloc)
    (hh : st.shared[h]? = some (some (some a))) (ha : st.heap[a]? = some (some blk)) :
    SharedPtr.reset_ptr_del_alloc h p del alloc st = .ok ()
      { released_shared st a blk with
        heap := (released_shared st a blk).heap ++
          [some { shared_count := 1, weak_count := 0, ptr := p,
                  derived := .ControlBlockDirect del alloc }],
        shared := st.shared.set h (some (some st.heap.length)) } := by
  simp [SharedPtr.reset_ptr_del_alloc_eq, SharedPtr.cb, SharedPtr.set_cb, allocate,
    release_shared_some _ _ _ ha, released_shared, hh]

theorem SharedPtr.reset_ptr_del_alloc_spec_empty (st : State) (h : Nat)
    (p : ValPtr) (del : Deleter) (alloc : Alloc)
    (hh : st.shared[h]? = some (some none)) :
    SharedPtr.reset_ptr_del_alloc h p del alloc st = .ok ()
      { st with
        heap := st.heap ++
          [some { shared_count := 1, weak_count := 0, ptr := p,
                  derived := .ControlBlockDirect del alloc }],
        shared := st.shared.set h (some (some st.heap.length)) } := by
  simp [SharedPtr.reset_ptr_del_alloc_eq, SharedPtr.cb, SharedPtr.set_cb, allocate,
    release_shared_none, hh]

theorem SharedPtr.reset_ptr_spec (st : State) (h a : Nat) (blk : ControlBlockBase)
    (p : ValPtr)
    (hh : st.shared[h]? = some (some (some a))) (ha : st.heap[a]? = some (some blk)) :
    SharedPtr.reset_ptr h p st = .ok ()
      { released_shared st a blk with
        heap := (released_shared st a blk).heap ++
          [some { shared_count := 1, weak_count := 0, ptr := p,
                  derived := .ControlBlockDirect .default_delete .allocator }],
        shared := st.shared.set h (some (some st.heap.length)) } := by
  simp [SharedPtr.reset_ptr_eq, SharedPtr.cb, SharedPtr.set_cb, allocate,
    release_shared_some _ _ _ ha, released_shared, hh]

theorem SharedPtr.reset_ptr_spec_empty (st : State) (h : Nat) (p : ValPtr)
    (hh : st.shared[h]? = some (some none)) :
    SharedPtr.reset_ptr h p st = .ok ()
      { st with
        heap := st.heap ++
          [some { shared_count := 1, weak_count := 0, ptr := p,
                  derived := .ControlBlockDirect .default_delete .allocator }],
        shared := st.shared.set h (some (some st.heap.length)) } := by
  simp [SharedPtr.reset_ptr_eq, SharedPtr.cb, SharedPtr.set_cb, allocate,
    release_shared_none, hh]

/-- C13, the two overloads that are well-formed: for a live handle `h` on the allocated block
`a` and a live empty handle `e`, `reset(p)` and `reset(p, del, alloc)` first bring heap and log
to the closed form `released_shared` of the release statements (nothing for `e`), and then
append a new `ControlBlockDirect` block with shared count 1, weak count 0, `ptr = p` and the
deleter `std::default_delete` resp. `del`, which the handle references afterwards. The third
overload `reset(Y* ptr, Deleter del)` has no counterpart here: its body constructs the
abstract `ControlBlockBase` from four arguments and cannot be instantiated. -/
theorem C13_reset_with_pointer_installs_fresh_block (st : State) (h a e : Nat)
    (blk : ControlBlockBase) (p : ValPtr) (del : Deleter) (alloc : Alloc)
    (hh : st.shared[h]? = some (some (some a))) (ha : st.heap[a]? = some (some blk))
    (he : st.shared[e]? = some (some none)) :
    SharedPtr.reset_ptr h p st = .ok ()
      { released_shared st a blk with
        heap := (released_shared st a blk).heap ++
          [some { shared_count := 1, weak_count := 0, ptr := p,
                  derived := .ControlBlockDirect .default_delete .allocator }],
        shared := st.shared.set h (some (some st.heap.length)) }
    ∧
    SharedPtr.reset_ptr_del_alloc h p del alloc st = .ok ()
      { released_shared st a blk with
        heap := (released_shared st a blk).heap ++
          [some { shared_count := 1, weak_count := 0, ptr := p,
                  derived := .ControlBlockDirect del alloc }],
        shared := st.shared.set h (some (some st.heap.length)) }
    ∧
    SharedPtr.reset_ptr e p st = .ok ()
      { st with
        heap := st.heap ++
          [some { shared_count := 1, weak_count := 0, ptr := p,
                  derived := .ControlBlockDirect .default_delete .allocator }],
        shared := st.shared.set e (some (some st.heap.length)) }
    ∧
    SharedPtr.reset_ptr_del_alloc e p del alloc st = .ok ()
      { st with
        heap := st.heap ++
          [some { shared_count := 1, weak_count := 0, ptr := p,
                  derived := .ControlBlockDirect del alloc }],
        shared := st.shared.set e (some (some st.heap.length)) } :=
  ⟨SharedPtr.reset_ptr_spec st h a blk p hh ha,
   SharedPtr.reset_ptr_del_alloc_spec st h a blk p del alloc hh ha,
   SharedPtr.reset_ptr_spec_empty st e p he,
   SharedPtr.reset_ptr_del_alloc_spec_empty st e p del alloc he⟩

theorem C13_witness :
    SharedPtr.reset_ptr 1 (.raw 20) demo_state_with_empty = .ok ()
      { heap := [none, some demo_block_b,
                 some ⟨1, 0, .raw 20, .ControlBlockDirect .default_delete .allocator⟩],
        shared := [some (some 1), some (some 2), some (some 1), some none],
        weak := [some (some 1)],
        log := [.deleter_call 0 (.custom 3) (.raw 10), .deallocate 0 .allocator] }
    ∧
    SharedPtr.reset_ptr_del_alloc 3 (.raw 20) (.custom 8) (.custom 9) demo_state_with_empty
      = .ok ()
      { heap := [some demo_block_a, some demo_block_b,
                 some ⟨1, 0, .raw 20, .ControlBlockDirect (.custom 8) (.custom 9)⟩],
        shared := [some (some 1), some (some 0), some (some 1), some (some 2)],
        weak := [some (some 1)],
        log := [] } := by
  have h := C13_reset_with_pointer_installs_fresh_block demo_state_with_empty 1 0 3
    demo_block_a (.raw 20) (.custom 8) (.custom 9) (by decide) (by decide) (by decide)
  refine ⟨?_, ?_⟩
  · rw [h.1]; decide
  · rw [h.2.2.2]; decide

/-! ## `WeakPtr`: queries, construction and release -/

theorem WeakPtr.weak_use_count_spec (st : State) (w b : Nat) (blk : ControlBlockBase)
    (hw : st.weak[w]? = some (some (some b))) (hb : st.heap[b]? = some (some blk)) :
    WeakPtr.use_count w st = .ok blk.shared_count st := by
  simp [WeakPtr.use_count, WeakPtr.cb, shared_count, deref, hw, hb]

theorem WeakPtr.expired_spec (st : State) (w b : Nat) (blk : ControlBlockBase)
    (hw : st.weak[w]? = some (some (some b))) (hb : st.heap[b]? = some (some blk)) :
    WeakPtr.expired w st = .ok (blk.shared_count == 0) st := by
  simp [WeakPtr.expired, WeakPtr.use_count, WeakPtr.cb, shared_count, deref, hw, hb]

theorem SharedPtr.ctor_ptr_spec (st : State) (p : ValPtr) :
    SharedPtr.ctor_ptr p st = .ok st.shared.length
      { st with
        heap := st.heap ++ [some { shared_count := 1, weak_count := 0, ptr := p,
                                   derived := .ControlBlockDirect .default_delete .allocator }],
        shared := st.shared ++ [some (some st.heap.length)] } := rfl

theorem WeakPtr.ctor_shared_spec (st : State) (s b : Nat) (blk : ControlBlockBase)
    (hs : st.shared[s]? = some (some (some b))) (hb : st.heap[b]? = some (some blk)) :
    WeakPtr.ctor_shared s st = .ok st.weak.length
      { st with
        heap := st.heap.set b (some { blk with weak_count := size_t_inc blk.weak_count }),
        weak := st.weak ++ [some (some b)] } := by
  simp [WeakPtr.ctor_shared, SharedPtr.cb, WeakPtr.begin_lifetime, WeakPtr.cb, inc_weak_count,
    deref, store, hs, hb]

theorem WeakPtr.weak_ctor_copy_spec (st : State) (w b : Nat) (blk : ControlBlockBase)
    (hw : st.weak[w]? = some (some (some b))) (hb : st.heap[b]? = some (some blk)) :
    WeakPtr.ctor_copy w st = .ok st.weak.length
      { st with
        heap := st.heap.set b (some { blk with weak_count := size_t_inc blk.weak_count }),
        weak := st.weak ++ [some (some b)] } := by
  have hwl := lt_length_of_getElem?_eq_some hw
  simp [WeakPtr.ctor_copy, WeakPtr.begin_lifetime, WeakPtr.cb, inc_weak_count,
    deref, store, hw, hb, List.getElem?_append_left hwl]

theorem WeakPtr.weak_dtor_eq (this : Nat) :
    WeakPtr.dtor this = (do
      let cb ← WeakPtr.cb this
      release_weak cb
      WeakPtr.end_lifetime this) := by
  simp only [WeakPtr.dtor, release_weak, M.bind_assoc, M.pure_bind, M.ite_bind]

theorem WeakPtr.assign_shared_eq (this sp : Nat) :
    WeakPtr.assign_shared this sp = (do
      let cb ← WeakPtr.cb this
      release_weak cb
      WeakPtr.set_cb this (← SharedPtr.cb sp)
      inc_weak_count (← WeakPtr.cb this)) := by
  simp only [WeakPtr.assign_shared, release_weak, M.bind_assoc, M.pure_bind, M.ite_bind]

theorem WeakPtr.weak_assign_copy_eq (this other : Nat) :
    WeakPtr.assign_copy this other = (do
      let cb ← WeakPtr.cb this
      release_weak cb
      WeakPtr.set_cb this (← WeakPtr.cb other)
      inc_weak_count (← WeakPtr.cb this)) := by
  simp only [WeakPtr.assign_copy, release_weak, M.bind_assoc, M.pure_bind, M.ite_bind]

theorem WeakPtr.weak_assign_move_eq (this other : Nat) :
    WeakPtr.assign_move this other = (do
      let cb ← WeakPtr.cb this
      release_weak cb
      WeakPtr.set_cb this (← WeakPtr.cb other)
      WeakPtr.set_cb other none) := by
  simp only [WeakPtr.assign_move, release_weak, M.bind_assoc, M.pure_bind, M.ite_bind]

theorem WeakPtr.weak_dtor_spec (st : State) (w a : Nat) (blk : ControlBlockBase)
    (hw : st.weak[w]? = some (some (some a))) (ha : st.heap[a]? = some (some blk)) :
    WeakPtr.dtor w st = .ok ()
      { released_weak st a blk with weak := st.weak.set w none } := by
  simp [WeakPtr.weak_dtor_eq, WeakPtr.cb, WeakPtr.end_lifetime, release_weak_some _ _ _ ha,
    released_weak, hw]

theorem released_weak_of_pos (st : State) (a : Nat) (blk : ControlBlockBase)
    (hpos : 0 < blk.weak_count) (hlt : blk.weak_count < SIZE_T_RANGE) :
    released_weak st a blk =
      { st with
        heap := st.heap.set a
          (if blk.weak_count = 1 ∧ blk.shared_count = 0 then none
           else some { blk with weak_count := blk.weak_count - 1 }),
        log := st.log ++
          (if blk.weak_count = 1 ∧ blk.shared_count = 0 then [dispose_event a blk]
           else []) } := by
  have hdec := size_t_dec_of_pos hpos hlt
  have h1 : blk.weak_count - 1 = 0 ↔ blk.weak_count = 1 := by omega
  simp only [released_weak, hdec, h1]

theorem dispose_event_is_not_destroy (a x : Nat) (blk : ControlBlockBase) :
    (dispose_event a blk).is_destroy x = false := by
  unfold dispose_event
  cases blk.derived <;> rfl

/-- C14: for a live observer `w` on an allocated block, `w.use_count()` returns the block's
shared count and `w.expired()` returns `true` exactly if that count is 0, both without
changing the state. And from any state `st0`: after `SharedPtr<T> a(p); WeakPtr<T> w(a);` and
the destructor of `a`, `w.expired()` is `true`, `w.use_count()` is 0, the log has grown by the
deleter call only, and the block is still allocated with shared count 0 and weak count 1. -/
theorem C14_weak_use_count_and_expired (st : State) (w b : Nat) (blk : ControlBlockBase)
    (st0 : State) (p : ValPtr)
    (hw : st.weak[w]? = some (some (some b))) (hb : st.heap[b]? = some (some blk)) :
    WeakPtr.use_count w st = .ok blk.shared_count st ∧
    (∃ e, WeakPtr.expired w st = .ok e st ∧ (e = true ↔ blk.shared_count = 0)) ∧
    (do
      let a ← SharedPtr.ctor_ptr p
      let w ← WeakPtr.ctor_shared a
      SharedPtr.dtor a
      return (← WeakPtr.expired w, ← WeakPtr.use_count w) : M (Bool × Nat)) st0
    = .ok (true, 0)
      { heap := st0.heap ++ [some { shared_count := 0, weak_count := 1, ptr := p,
                                    derived := .ControlBlockDirect .default_delete .allocator }],
        shared := st0.shared ++ [none],
        weak := st0.weak ++ [some (some st0.heap.length)],
        log := st0.log ++ [.deleter_call st0.heap.length .default_delete p] } := by
  refine ⟨WeakPtr.weak_use_count_spec st w b blk hw hb,
    ⟨_, WeakPtr.expired_spec st w b blk hw hb, by simp⟩, ?_⟩
  rw [M.bind_apply, SharedPtr.ctor_ptr_spec]
  simp only []
  rw [M.bind_apply, WeakPtr.ctor_shared_spec _ _ st0.heap.length
    ⟨1, 0, p, .ControlBlockDirect .default_delete .allocator⟩ (by simp) (by simp)]
  simp only []
  rw [M.bind_apply, SharedPtr.dtor_spec _ _ st0.heap.length
    ⟨1, 1, p, .ControlBlockDirect .default_delete .allocator⟩ (by simp) (by simp)]
  simp [released_shared, destroy_event, WeakPtr.expired, WeakPtr.use_count, WeakPtr.cb,
    shared_count, deref]

theorem C14_witness :
    WeakPtr.use_count 0 demo_state = .ok 2 demo_state ∧
    (∃ e, WeakPtr.expired 0 demo_state = .ok e demo_state ∧
      (e = true ↔ demo_block_b.shared_count = 0)) :=
  have h := C14_weak_use_count_and_expired demo_state 0 1 demo_block_b State.empty (.raw 7)
    (by decide) (by decide)
  ⟨h.1, h.2.1⟩

/-- C17, in any state. The release statements of `WeakPtr` (the destructor's body, and the
first statements of each of the three assignments), run on an allocated block with weak count
`1 ≤ k < 2 ^ 64`, deallocate the block if `k = 1` and the shared count is 0, and otherwise leave
it with weak count `k - 1` and the shared count as before; the log grows by the `dispose()`
event in the first case only, never by a `destroy()` event. So does the destructor of every
live observer on such a block, which also ends the observer's lifetime. For every live owner
`s` and every live observer `w` of an allocated block whose weak count is below `2 ^ 64 - 1`,
`WeakPtr(s)` and the copy `WeakPtr(w)` add one to the weak count of the block and leave its
shared count as it was. -/
theorem C17_weak_release_and_construction (st : State) :
    (∀ (a : Nat) (blk : ControlBlockBase), st.heap[a]? = some (some blk) →
      1 ≤ blk.weak_count → blk.weak_count < SIZE_T_RANGE →
      release_weak (some a) st = .ok ()
        { st with
          heap := st.heap.set a
            (if blk.weak_count = 1 ∧ blk.shared_count = 0 then none
             else some { blk with weak_count := blk.weak_count - 1 }),
          log := st.log ++
            (if blk.weak_count = 1 ∧ blk.shared_count = 0 then [dispose_event a blk]
             else []) })
    ∧
    (∀ (w a : Nat) (blk : ControlBlockBase),
      st.weak[w]? = some (some (some a)) → st.heap[a]? = some (some blk) →
      1 ≤ blk.weak_count → blk.weak_count < SIZE_T_RANGE →
      WeakPtr.dtor w st = .ok ()
        { st with
          heap := st.heap.set a
            (if blk.weak_count = 1 ∧ blk.shared_count = 0 then none
             else some { blk with weak_count := blk.weak_count - 1 }),
          weak := st.weak.set w none,
          log := st.log ++
            (if blk.weak_count = 1 ∧ blk.shared_count = 0 then [dispose_event a blk]
             else []) })
    ∧
    (∀ (a x : Nat) (blk : ControlBlockBase), (dispose_event a blk).is_destroy x = false)
    ∧
    (∀ this sp, WeakPtr.assign_shared this sp = (do
      let cb ← WeakPtr.cb this
      release_weak cb
      WeakPtr.set_cb this (← SharedPtr.cb sp)
      inc_weak_count (← WeakPtr.cb this)))
    ∧
    (∀ this other, WeakPtr.assign_copy this other = (do
      let cb ← WeakPtr.cb this
      release_weak cb
      WeakPtr.set_cb this (← WeakPtr.cb other)
      inc_weak_count (← WeakPtr.cb this)))
    ∧
    (∀ this other, WeakPtr.assign_move this other = (do
      let cb ← WeakPtr.cb this
      release_weak cb
      WeakPtr.set_cb this (← WeakPtr.cb other)
      WeakPtr.set_cb other none))
    ∧
    (∀ (s b : Nat) (blk : ControlBlockBase),
      st.shared[s]? = some (some (some b)) → st.heap[b]? = some (some blk) →
      blk.weak_count + 1 < SIZE_T_RANGE →
      WeakPtr.ctor_shared s st = .ok st.weak.length
        { st with
          heap := st.heap.set b (some { blk with weak_count := blk.weak_count + 1 }),
          weak := st.weak ++ [some (some b)] })
    ∧
    (∀ (w a : Nat) (blk : ControlBlockBase),
      st.weak[w]? = some (some (some a)) → st.heap[a]? = some (some blk) →
      blk.weak_count + 1 < SIZE_T_RANGE →
      WeakPtr.ctor_copy w st = .ok st.weak.length
        { st with
          heap := st.heap.set a (some { blk with weak_count := blk.weak_count + 1 }),
          weak := st.weak ++ [some (some a)] }) := by
  refine ⟨?_, ?_, fun a x blk => dispose_event_is_not_destroy a x blk,
    WeakPtr.assign_shared_eq, WeakPtr.weak_assign_copy_eq, WeakPtr.weak_assign_move_eq, ?_, ?_⟩
  · intro a blk ha hpos hlt
    rw [release_weak_some st a blk ha, released_weak_of_pos st a blk hpos hlt]
  · intro w a blk hw ha hpos hlt
    rw [WeakPtr.weak_dtor_spec st w a blk hw ha, released_weak_of_pos st a blk hpos hlt]
  · intro s b blk hs hb hlt
    rw [WeakPtr.ctor_shared_spec st s b blk hs hb, size_t_inc_of_lt hlt]
  · intro w a blk hw ha hlt
    rw [WeakPtr.weak_ctor_copy_spec st w a blk hw ha, size_t_inc_of_lt hlt]

theorem C17_witness :
    WeakPtr.dtor 0 expired_state = .ok ()
      { heap := [none], shared := [none], weak := [none],
        log := [.deleter_call 0 .default_delete (.raw 7), .deallocate 0 .allocator] }
    ∧
    WeakPtr.dtor 0 demo_state = .ok ()
      { heap := [some demo_block_a, some ⟨2, 0, .object 1,
                  .ControlBlockMakeShared (.from_arg 5) .allocator⟩],
        shared := [some (some 1), some (some 0), some (some 1)],
        weak := [none],
        log := [] }
    ∧
    WeakPtr.ctor_shared 0 sole_owner_state = .ok 0
      { heap := [some ⟨1, 1, .raw 7, .ControlBlockDirect .default_delete .allocator⟩],
        shared := [some (some 0)], weak := [some (some 0)], log := [] }
    ∧
    WeakPtr.ctor_copy 0 expired_state = .ok 1
      { heap := [some ⟨0, 2, .raw 7, .ControlBlockDirect .default_delete .allocator⟩],
        shared := [none], weak := [some (some 0), some (some 0)],
        log := [.deleter_call 0 .default_delete (.raw 7)] } := by
  have h1 := (C17_weak_release_and_construction expired_state).2.1 0 0 expired_block
    (by decide) (by decide) (by decide) (by decide)
  have h2 := (C17_weak_release_and_construction demo_state).2.1 0 1 demo_block_b
    (by decide) (by decide) (by decide) (by decide)
  have h3 := (C17_weak_release_and_construction sole_owner_state).2.2.2.2.2.2.1 0 0
    sole_owner_block (by decide) (by decide) (by decide)
  have h4 := (C17_weak_release_and_construction expired_state).2.2.2.2.2.2.2 0 0
    expired_block (by decide) (by decide) (by decide)
  refine ⟨?_, ?_, ?_, ?_⟩
  · rw [h1]; decide
  · rw [h2]; decide
  · rw [h3]; decide
  · rw [h4]; decide

/-! ## `WeakPtr::lock` on a block that is not expired -/

/-- C18: let `w` be a live observer on the allocated block `b` with shared count
`1 ≤ n < 2 ^ 64 - 1`. `w.lock()` returns a new owning handle on `b`; afterwards the block has
shared count `n + 1` and is otherwise as before, and no other block, no observer and no log
entry has changed. Dropping the returned handle gives back the heap, the observers and the log
of the state before `lock()`: the count is `n` again and neither `destroy()` nor `dispose()`
has run. -/
theorem C18_lock_on_live_block (st : State) (w b : Nat) (blk : ControlBlockBase)
    (hw : st.weak[w]? = some (some (some b))) (hb : st.heap[b]? = some (some blk))
    (hpos : 1 ≤ blk.shared_count) (hlt : blk.shared_count + 1 < SIZE_T_RANGE) :
    ∃ st', WeakPtr.lock w st = .ok st.shared.length st' ∧
      st'.shared = st.shared ++ [some (some b)] ∧
      st'.heap = st.heap.set b (some { blk with shared_count := blk.shared_count + 1 }) ∧
      st'.heap[b]? = some (some { blk with shared_count := blk.shared_count + 1 }) ∧
      st'.weak = st.weak ∧ st'.log = st.log ∧
      ∃ st'', SharedPtr.dtor st.shared.length st' = .ok () st'' ∧
        st''.heap = st.heap ∧ st''.heap[b]? = some (some blk) ∧
        st''.weak = st.weak ∧ st''.log = st.log ∧
        st''.shared = st.shared ++ [none] := by
  have hbl := lt_length_of_getElem?_eq_some hb
  have hinc := size_t_inc_of_lt hlt
  refine ⟨_, WeakPtr.lock_spec st w b blk hw hb, rfl, ?_, ?_, rfl, rfl, ?_⟩
  · simp only [hinc]
  · simp [hinc, hbl]
  · refine ⟨_, SharedPtr.dtor_spec _ _ b
      { blk with shared_count := size_t_inc blk.shared_count } (by simp) (by simp [hbl]),
      ?_, ?_, rfl, ?_, ?_⟩
    · have hne : ¬ (blk.shared_count + 1 = 1) := by omega
      rw [released_shared_of_pos _ _ _ (by simp only [hinc]; omega) (by simp only [hinc]; omega)]
      simp only [hinc, hne, false_and, if_false, Nat.add_sub_cancel, List.set_set]
      exact set_eq_self_of_getElem? hb
    · have hne : ¬ (blk.shared_count + 1 = 1) := by omega
      rw [released_shared_of_pos _ _ _ (by simp only [hinc]; omega) (by simp only [hinc]; omega)]
      simp only [hinc, hne, false_and, if_false, Nat.add_sub_cancel, List.set_set]
      rw [set_eq_self_of_getElem? hb]
      exact hb
    · have hne : ¬ (blk.shared_count + 1 = 1) := by omega
      rw [released_shared_of_pos _ _ _ (by simp only [hinc]; omega) (by simp only [hinc]; omega)]
      simp only [hinc, hne, if_false, List.append_nil]
    · simp

theorem C18_witness :
    ∃ st', WeakPtr.lock 0 demo_state = .ok 3 st' ∧
      st'.shared = demo_state.shared ++ [some (some 1)] ∧
      st'.heap = demo_state.heap.set 1
        (some { demo_block_b with shared_count := demo_block_b.shared_count + 1 }) ∧
      st'.heap[1]? = some (some { demo_block_b with
        shared_count := demo_block_b.shared_count + 1 }) ∧
      st'.weak = demo_state.weak ∧ st'.log = demo_state.log ∧
      ∃ st'', SharedPtr.dtor 3 st' = .ok () st'' ∧
        st''.heap = demo_state.heap ∧ st''.heap[1]? = some (some demo_block_b) ∧
        st''.weak = demo_state.weak ∧ st''.log = demo_state.log ∧
        st''.shared = demo_state.shared ++ [none] :=
  C18_lock_on_live_block demo_state 0 1 demo_block_b (by decide) (by decide) (by decide)
    (by decide)

/-! ## Copy assignment from another block, and from an empty handle -/

/-- C19, the code at the failing input: `SharedPtr<T> a(p); SharedPtr<T> b; a = b;`. The
assignment releases the block of `a` (deleter call, deallocation), stores the null `cb` of `b`
in `a` and then evaluates `++cb->shared_count` through that null pointer. The copy constructor
from the same empty `b` tests `cb != nullptr` and simply yields another empty handle. -/
theorem C19_copy_assignment_from_empty_handle_faults :
    (do
      let a ← SharedPtr.ctor_ptr (.raw 7)
      let b ← SharedPtr.ctor
      SharedPtr.assign_copy a b : M Unit) State.empty
    = .fault .null_deref
        { heap := [none],
          shared := [some none, some none],
          weak := [],
          log := [.deleter_call 0 .default_delete (.raw 7), .deallocate 0 .allocator] }
    ∧
    (do
      let b ← SharedPtr.ctor
      SharedPtr.ctor_copy b : M Nat) State.empty
    = .ok 1 { heap := [], shared := [some none, some none], weak := [], log := [] } := by
  decide

theorem SharedPtr.ctor_copy_spec_empty (st : State) (s : Nat)
    (hs : st.shared[s]? = some (some none)) :
    SharedPtr.ctor_copy s st = .ok st.shared.length
      { st with shared := st.shared ++ [some none] } := by
  have hsl := lt_length_of_getElem?_eq_some hs
  simp [SharedPtr.ctor_copy, SharedPtr.begin_lifetime, SharedPtr.cb, hs,
    List.getElem?_append_left hsl]

theorem count_set_of_getElem? {l : List (Option CbPtr)} {i : Nat} {x : Option CbPtr}
    (h : l[i]? = some x) (y a : Option CbPtr) :
    (l.set i y).count a + (if x = a then 1 else 0) = l.count a + (if y = a then 1 else 0) := by
  induction l generalizing i with
  | nil => simp at h
  | cons z zs ih =>
    cases i with
    | zero =>
      simp only [List.getElem?_cons_zero, Option.some.injEq] at h
      subst h
      simp only [List.set_cons_zero, List.count_cons, beq_iff_eq]
      exact Nat.add_right_comm _ _ _
    | succ j =>
      simp only [List.getElem?_cons_succ] at h
      have h2 := ih h
      simp only [List.set_cons_succ, List.count_cons, beq_iff_eq]
      rw [Nat.add_right_comm, h2, Nat.add_right_comm]

theorem count_pos_of_getElem? {l : List (Option CbPtr)} {i : Nat} {x : Option CbPtr}
    (h : l[i]? = some x) : 0 < l.count x :=
  List.count_pos_iff.mpr (List.getElem?_mem h)

theorem count_append_null (l : List (Option CbPtr)) (b : Nat) :
    (l ++ [some none]).count (some (some b)) = l.count (some (some b)) := by
  simp [List.count_append, List.count_singleton]

theorem count_append_ref_self (l : List (Option CbPtr)) (b : Nat) :
    (l ++ [some (some b)]).count (some (some b)) = l.count (some (some b)) + 1 := by
  simp [List.count_append, List.count_singleton]

theorem count_append_ref_other (l : List (Option CbPtr)) {a b : Nat} (h : a ≠ b) :
    (l ++ [some (some a)]).count (some (some b)) = l.count (some (some b)) := by
  simp [List.count_append, List.count_singleton, h]

theorem count_set_drop_self {l : List (Option CbPtr)} {i a : Nat} {x : Option CbPtr}
    (h : l[i]? = some (some (some a))) (hx : ∀ b, x ≠ some (some b)) :
    (l.set i x).count (some (some a)) + 1 = l.count (some (some a)) := by
  have := count_set_of_getElem? h x (some (some a))
  simpa [hx a] using this

theorem count_set_drop_other {l : List (Option CbPtr)} {i a b : Nat} {x : Option CbPtr}
    (h : l[i]? = some (some (some a))) (hx : ∀ b, x ≠ some (some b)) (hab : a ≠ b) :
    (l.set i x).count (some (some b)) = l.count (some (some b)) := by
  have := count_set_of_getElem? h x (some (some b))
  simpa [hx b, hab] using this

theorem count_set_gain_self {l : List (Option CbPtr)} {i a : Nat} {x : Option CbPtr}
    (h : l[i]? = some x) (hx : ∀ b, x ≠ some (some b)) :
    (l.set i (some (some a))).count (some (some a)) = l.count (some (some a)) + 1 := by
  have := count_set_of_getElem? h (some (some a)) (some (some a))
  simpa [hx a] using this

theorem count_set_gain_other {l : List (Option CbPtr)} {i a b : Nat} {x : Option CbPtr}
    (h : l[i]? = some x) (hx : ∀ b, x ≠ some (some b)) (hab : a ≠ b) :
    (l.set i (some (some a))).count (some (some b)) = l.count (some (some b)) := by
  have := count_set_of_getElem? h (some (some a)) (some (some b))
  simpa [hx b, hab] using this

theorem count_set_null {l : List (Option CbPtr)} {i : Nat} {x y : Option CbPtr}
    (h : l[i]? = some x) (hx : ∀ b, x ≠ some (some b)) (hy : ∀ b, y ≠ some (some b))
    (b : Nat) :
    (l.set i y).count (some (some b)) = l.count (some (some b)) := by
  have := count_set_of_getElem? h y (some (some b))
  simpa [hx b, hy b] using this

/-! ## Count accuracy under the elementary changes of heap and handles -/

theorem Acc.shared_count_eq {H : List (Option ControlBlockBase)} {S W : List (Option CbPtr)}
    (hacc : Acc H S W) {a : Nat} {blk : ControlBlockBase} (ha : H[a]? = some (some blk)) :
    blk.shared_count = S.count (some (some a)) := by
  have := (hacc a).1
  rw [ha] at this
  exact this

theorem Acc.weak_count_eq {H : List (Option ControlBlockBase)} {S W : List (Option CbPtr)}
    (hacc : Acc H S W) {a : Nat} {blk : ControlBlockBase} (ha : H[a]? = some (some blk)) :
    blk.weak_count = W.count (some (some a)) := by
  have := (hacc a).2
  rw [ha] at this
  exact this

theorem Acc.allocated_of_shared_pos {H : List (Option ControlBlockBase)}
    {S W : List (Option CbPtr)} (hacc : Acc H S W) {a : Nat}
    (h : 0 < S.count (some (some a))) : ∃ blk, H[a]? = some (some blk) := by
  have h1 := (hacc a).1
  match hH : H[a]? with
  | some (some blk) => exact ⟨blk, rfl⟩
  | some none =>
    rw [hH] at h1
    simp only [count_ok] at h1
    omega
  | none =>
    rw [hH] at h1
    simp only [count_ok] at h1
    omega

theorem Acc.allocated_of_weak_pos {H : List (Option ControlBlockBase)}
    {S W : List (Option CbPtr)} (hacc : Acc H S W) {a : Nat}
    (h : 0 < W.count (some (some a))) : ∃ blk, H[a]? = some (some blk) := by
  have h1 := (hacc a).2
  match hH : H[a]? with
  | some (some blk) => exact ⟨blk, rfl⟩
  | some none =>
    rw [hH] at h1
    simp only [count_ok] at h1
    omega
  | none =>
    rw [hH] at h1
    simp only [count_ok] at h1
    omega

theorem Acc.congr_counts {H : List (Option ControlBlockBase)} {S W S' W' : List (Option CbPtr)}
    (hacc : Acc H S W)
    (hS : ∀ b, S'.count (some (some b)) = S.count (some (some b)))
    (hW : ∀ b, W'.count (some (some b)) = W.count (some (some b))) :
    Acc H S' W' := by
  intro b
  rw [hS b, hW b]
  exact hacc b

theorem Acc.release_shared_step {H : List (Option ControlBlockBase)}
    {S W S' : List (Option CbPtr)} (hacc : Acc H S W) {a : Nat} {blk : ControlBlockBase}
    (ha : H[a]? = some (some blk)) (hlen : S.length < SIZE_T_RANGE)
    (hself : S'.count (some (some a)) + 1 = S.count (some (some a)))
    (hother : ∀ b, a ≠ b → S'.count (some (some b)) = S.count (some (some b))) :
    Acc (H.set a
        (if size_t_dec blk.shared_count = 0 ∧ blk.weak_count = 0 then none
         else some { blk with shared_count := size_t_dec blk.shared_count }))
      S' W := by
  have hc := hacc.shared_count_eq ha
  have hw := hacc.weak_count_eq ha
  have hle : S.count (some (some a)) ≤ S.length := List.count_le_length _ _
  have hdec : size_t_dec blk.shared_count = blk.shared_count - 1 :=
    @size_t_dec_of_pos blk.shared_count (by omega) (by omega)
  have hal := lt_length_of_getElem?_eq_some ha
  intro b
  by_cases hb : a = b
  · subst hb
    rw [List.getElem?_set_self hal]
    by_cases h0 : size_t_dec blk.shared_count = 0 ∧ blk.weak_count = 0
    · rw [if_pos h0]
      simp only [count_ok]
      omega
    · rw [if_neg h0]
      simp only [count_ok]
      omega
  · rw [List.getElem?_set_ne hb, hother b hb]
    exact hacc b

theorem Acc.release_weak_step {H : List (Option ControlBlockBase)}
    {S W W' : List (Option CbPtr)} (hacc : Acc H S W) {a : Nat} {blk : ControlBlockBase}
    (ha : H[a]? = some (some blk)) (hlen : W.length < SIZE_T_RANGE)
    (hself : W'.count (some (some a)) + 1 = W.count (some (some a)))
    (hother : ∀ b, a ≠ b → W'.count (some (some b)) = W.count (some (some b))) :
    Acc (H.set a
        (if size_t_dec blk.weak_count = 0 ∧ blk.shared_count = 0 then none
         else some { blk with weak_count := size_t_dec blk.weak_count }))
      S W' := by
  have hc := hacc.shared_count_eq ha
  have hw := hacc.weak_count_eq ha
  have hle : W.count (some (some a)) ≤ W.length := List.count_le_length _ _
  have hdec : size_t_dec blk.weak_count = blk.weak_count - 1 :=
    @size_t_dec_of_pos blk.weak_count (by omega) (by omega)
  have hal := lt_length_of_getElem?_eq_some ha
  intro b
  by_cases hb : a = b
  · subst hb
    rw [List.getElem?_set_self hal]
    by_cases h0 : size_t_dec blk.weak_count = 0 ∧ blk.shared_count = 0
    · rw [if_pos h0]
      simp only [count_ok]
      omega
    · rw [if_neg h0]
      simp only [count_ok]
      omega
  · rw [List.getElem?_set_ne hb, hother b hb]
    exact hacc b

theorem Acc.acquire_shared_step {H : List (Option ControlBlockBase)}
    {S W S' : List (Option CbPtr)} (hacc : Acc H S W) {a : Nat} {blk : ControlBlockBase}
    (ha : H[a]? = some (some blk)) (hlen : S.length + 1 < SIZE_T_RANGE)
    (hself : S'.count (some (some a)) = S.count (some (some a)) + 1)
    (hother : ∀ b, a ≠ b → S'.count (some (some b)) = S.count (some (some b))) :
    Acc (H.set a (some { blk with shared_count := size_t_inc blk.shared_count })) S' W := by
  have hc := hacc.shared_count_eq ha
  have hw := hacc.weak_count_eq ha
  have hle : S.count (some (some a)) ≤ S.length := List.count_le_length _ _
  have hinc : size_t_inc blk.shared_count = blk.shared_count + 1 :=
    @size_t_inc_of_lt blk.shared_count (by omega)
  have hal := lt_length_of_getElem?_eq_some ha
  intro b
  by_cases hb : a = b
  · subst hb
    rw [List.getElem?_set_self hal]
    simp only [count_ok]
    omega
  · rw [List.getElem?_set_ne hb, hother b hb]
    exact hacc b

theorem Acc.acquire_weak_step {H : List (Option ControlBlockBase)}
    {S W W' : List (Option CbPtr)} (hacc : Acc H S W) {a : Nat} {blk : ControlBlockBase}
    (ha : H[a]? = some (some blk)) (hlen : W.length + 1 < SIZE_T_RANGE)
    (hself : W'.count (some (some a)) = W.count (some (some a)) + 1)
    (hother : ∀ b, a ≠ b → W'.count (some (some b)) = W.count (some (some b))) :
    Acc (H.set a (some { blk with weak_count := size_t_inc blk.weak_count })) S W' := by
  have hc := hacc.shared_count_eq ha
  have hw := hacc.weak_count_eq ha
  have hle : W.count (some (some a)) ≤ W.length := List.count_le_length _ _
  have hinc : size_t_inc blk.weak_count = blk.weak_count + 1 :=
    @size_t_inc_of_lt blk.weak_count (by omega)
  have hal := lt_length_of_getElem?_eq_some ha
  intro b
  by_cases hb : a = b
  · subst hb
    rw [List.getElem?_set_self hal]
    simp only [count_ok]
    omega
  · rw [List.getElem?_set_ne hb, hother b hb]
    exact hacc b

theorem Acc.fresh_unreferenced {H : List (Option ControlBlockBase)}
    {S W : List (Option CbPtr)} (hacc : Acc H S W) :
    S.count (some (some H.length)) = 0 ∧ W.count (some (some H.length)) = 0 := by
  have h := hacc H.length
  rw [List.getElem?_eq_none (Nat.le_refl _)] at h
  exact h

theorem Acc.allocate_step {H : List (Option ControlBlockBase)}
    {S W S' : List (Option CbPtr)} (hacc : Acc H S W) {blk : ControlBlockBase}
    (h1 : blk.shared_count = 1) (h0 : blk.weak_count = 0)
    (hself : S'.count (some (some H.length)) = S.count (some (some H.length)) + 1)
    (hother : ∀ b, H.length ≠ b → S'.count (some (some b)) = S.count (some (some b))) :
    Acc (H ++ [some blk]) S' W := by
  have hf := hacc.fresh_unreferenced
  intro b
  by_cases hb : H.length = b
  · subst hb
    rw [List.getElem?_concat_length]
    simp only [count_ok]
    omega
  · rw [hother b hb]
    by_cases hlt : b < H.length
    · rw [List.getElem?_append_left hlt]
      exact hacc b
    · have hge : H.length + 1 ≤ b := by omega
      have hnone : (H ++ [some blk])[b]? = none := by
        apply List.getElem?_eq_none
        simp only [List.length_append, List.length_singleton]
        exact hge
      have hb0 := hacc b
      rw [List.getElem?_eq_none (by omega)] at hb0
      rw [hnone]
      exact hb0

/-! ## What a successful run of a statement tells -/

theorem M.bind_ok {α β : Type} {m : M α} {f : α → M β} {s s2 : State} {b : β}
    (h : (m >>= f) s = .ok b s2) : ∃ a s1, m s = .ok a s1 ∧ f a s1 = .ok b s2 := by
  rw [M.bind_apply] at h
  cases hm : m s with
  | ok a s1 =>
    rw [hm] at h
    exact ⟨a, s1, rfl, h⟩
  | fault e s1 =>
    rw [hm] at h
    cases h

theorem M.pure_ok {α : Type} {a b : α} {s s1 : State}
    (h : @Pure.pure M _ α a s = .ok b s1) : b = a ∧ s = s1 := by
  rw [M.pure_apply] at h
  cases h
  exact ⟨rfl, rfl⟩

theorem SharedPtr.cb_ok {h : Nat} {s s1 : State} {c : CbPtr}
    (hr : SharedPtr.cb h s = .ok c s1) : s.shared[h]? = some (some c) ∧ s = s1 := by
  unfold SharedPtr.cb at hr
  split at hr
  · cases hr
    exact ⟨by assumption, rfl⟩
  · cases hr

theorem WeakPtr.weak_cb_ok {h : Nat} {s s1 : State} {c : CbPtr}
    (hr : WeakPtr.cb h s = .ok c s1) : s.weak[h]? = some (some c) ∧ s = s1 := by
  unfold WeakPtr.cb at hr
  split at hr
  · cases hr
    exact ⟨by assumption, rfl⟩
  · cases hr

theorem SharedPtr.set_cb_ok {h : Nat} {s s1 : State} {c : CbPtr} {u : Unit}
    (hr : SharedPtr.set_cb h c s = .ok u s1) :
    (∃ c0, s.shared[h]? = some (some c0)) ∧
      s1 = { s with shared := s.shared.set h (some c) } := by
  unfold SharedPtr.set_cb at hr
  split at hr
  · cases hr
    exact ⟨⟨_, by assumption⟩, rfl⟩
  · cases hr

theorem WeakPtr.weak_set_cb_ok {h : Nat} {s s1 : State} {c : CbPtr} {u : Unit}
    (hr : WeakPtr.set_cb h c s = .ok u s1) :
    (∃ c0, s.weak[h]? = some (some c0)) ∧
      s1 = { s with weak := s.weak.set h (some c) } := by
  unfold WeakPtr.set_cb at hr
  split at hr
  · cases hr
    exact ⟨⟨_, by assumption⟩, rfl⟩
  · cases hr

theorem SharedPtr.end_lifetime_ok {h : Nat} {s s1 : State} {u : Unit}
    (hr : SharedPtr.end_lifetime h s = .ok u s1) :
    (∃ c0, s.shared[h]? = some (some c0)) ∧
      s1 = { s with shared := s.shared.set h none } := by
  unfold SharedPtr.end_lifetime at hr
  split at hr
  · cases hr
    exact ⟨⟨_, by assumption⟩, rfl⟩
  · cases hr

theorem WeakPtr.weak_end_lifetime_ok {h : Nat} {s s1 : State} {u : Unit}
    (hr : WeakPtr.end_lifetime h s = .ok u s1) :
    (∃ c0, s.weak[h]? = some (some c0)) ∧
      s1 = { s with weak := s.weak.set h none } := by
  unfold WeakPtr.end_lifetime at hr
  split at hr
  · cases hr
    exact ⟨⟨_, by assumption⟩, rfl⟩
  · cases hr

theorem deref_ok {cb : CbPtr} {s s1 : State} {r : Nat × ControlBlockBase}
    (hr : deref cb s = .ok r s1) :
    cb = some r.1 ∧ s.heap[r.1]? = some (some r.2) ∧ s = s1 := by
  unfold deref at hr
  split at hr
  · cases hr
  · split at hr
    · cases hr
      exact ⟨rfl, by assumption, rfl⟩
    · cases hr

theorem inc_shared_count_ok {cb : CbPtr} {s s1 : State} {u : Unit}
    (hr : inc_shared_count cb s = .ok u s1) :
    ∃ b blk, cb = some b ∧ s.heap[b]? = some (some blk) ∧
      s1 = { s with
        heap := s.heap.set b (some { blk with shared_count := size_t_inc blk.shared_count }) } := by
  unfold inc_shared_count at hr
  obtain ⟨r, s0, h1, h2⟩ := M.bind_ok hr
  obtain ⟨hcb, hb, rfl⟩ := deref_ok h1
  refine ⟨r.1, r.2, hcb, hb, ?_⟩
  simp only [store, hb] at h2
  cases h2
  rfl

theorem inc_weak_count_ok {cb : CbPtr} {s s1 : State} {u : Unit}
    (hr : inc_weak_count cb s = .ok u s1) :
    ∃ b blk, cb = some b ∧ s.heap[b]? = some (some blk) ∧
      s1 = { s with
        heap := s.heap.set b (some { blk with weak_count := size_t_inc blk.weak_count }) } := by
  unfold inc_weak_count at hr
  obtain ⟨r, s0, h1, h2⟩ := M.bind_ok hr
  obtain ⟨hcb, hb, rfl⟩ := deref_ok h1
  refine ⟨r.1, r.2, hcb, hb, ?_⟩
  simp only [store, hb] at h2
  cases h2
  rfl

theorem shared_count_ok {cb : CbPtr} {s s1 : State} {n : Nat}
    (hr : shared_count cb s = .ok n s1) : s = s1 := by
  unfold shared_count at hr
  obtain ⟨r, s0, h1, h2⟩ := M.bind_ok hr
  obtain ⟨_, _, rfl⟩ := deref_ok h1
  exact (M.pure_ok h2).2

theorem ptr_ok {cb : CbPtr} {s s1 : State} {p : ValPtr}
    (hr : ptr cb s = .ok p s1) : s = s1 := by
  unfold ptr at hr
  obtain ⟨r, s0, h1, h2⟩ := M.bind_ok hr
  obtain ⟨_, _, rfl⟩ := deref_ok h1
  exact (M.pure_ok h2).2

theorem release_shared_ok {cb : CbPtr} {s s1 : State} {u : Unit}
    (hr : release_shared cb s = .ok u s1) :
    (cb = none ∧ s1 = s) ∨
    ∃ a blk, cb = some a ∧ s.heap[a]? = some (some blk) ∧ s1 = released_shared s a blk := by
  cases cb with
  | none =>
    rw [release_shared_none] at hr
    cases hr
    exact Or.inl ⟨rfl, rfl⟩
  | some a =>
    match hH : s.heap[a]? with
    | some (some blk) =>
      rw [release_shared_some s a blk hH] at hr
      cases hr
      exact Or.inr ⟨a, blk, rfl, hH, rfl⟩
    | some none =>
      rw [release_shared_dangling s a (by intro blk; rw [hH]; simp)] at hr
      cases hr
    | none =>
      rw [release_shared_dangling s a (by intro blk; rw [hH]; simp)] at hr
      cases hr

theorem release_weak_ok {cb : CbPtr} {s s1 : State} {u : Unit}
    (hr : release_weak cb s = .ok u s1) :
    (cb = none ∧ s1 = s) ∨
    ∃ a blk, cb = some a ∧ s.heap[a]? = some (some blk) ∧ s1 = released_weak s a blk := by
  cases cb with
  | none =>
    rw [release_weak_none] at hr
    cases hr
    exact Or.inl ⟨rfl, rfl⟩
  | some a =>
    match hH : s.heap[a]? with
    | some (some blk) =>
      rw [release_weak_some s a blk hH] at hr
      cases hr
      exact Or.inr ⟨a, blk, rfl, hH, rfl⟩
    | some none =>
      rw [release_weak_dangling s a (by intro blk; rw [hH]; simp)] at hr
      cases hr
    | none =>
      rw [release_weak_dangling s a (by intro blk; rw [hH]; simp)] at hr
      cases hr

/-! ## The release statements keep the counts accurate -/

theorem release_shared_phase {s s1 : State} {this : Nat} {cb : CbPtr} {u : Unit}
    (hacc : Accurate s) (hlen : s.shared.length < SIZE_T_RANGE)
    (hthis : s.shared[this]? = some (some cb))
    (hr : release_shared cb s = .ok u s1) (x : Option CbPtr) (hx : ∀ b, x ≠ some (some b)) :
    s1.shared = s.shared ∧ s1.weak = s.weak ∧ Acc s1.heap (s.shared.set this x) s.weak := by
  rcases release_shared_ok hr with ⟨rfl, rfl⟩ | ⟨a, blk, rfl, ha, rfl⟩
  · refine ⟨rfl, rfl, ?_⟩
    exact hacc.congr_counts
      (fun b => count_set_null hthis (by intro b; simp) hx b) (fun _ => rfl)
  · refine ⟨rfl, rfl, ?_⟩
    exact Acc.release_shared_step hacc ha hlen (count_set_drop_self hthis hx)
      (fun b hab => count_set_drop_other hthis hx hab)

theorem release_weak_phase {s s1 : State} {this : Nat} {cb : CbPtr} {u : Unit}
    (hacc : Accurate s) (hlen : s.weak.length < SIZE_T_RANGE)
    (hthis : s.weak[this]? = some (some cb))
    (hr : release_weak cb s = .ok u s1) (x : Option CbPtr) (hx : ∀ b, x ≠ some (some b)) :
    s1.shared = s.shared ∧ s1.weak = s.weak ∧ Acc s1.heap s.shared (s.weak.set this x) := by
  rcases release_weak_ok hr with ⟨rfl, rfl⟩ | ⟨a, blk, rfl, ha, rfl⟩
  · refine ⟨rfl, rfl, ?_⟩
    exact hacc.congr_counts (fun _ => rfl)
      (fun b => count_set_null hthis (by intro b; simp) hx b)
  · refine ⟨rfl, rfl, ?_⟩
    exact Acc.release_weak_step hacc ha hlen (count_set_drop_self hthis hx)
      (fun b hab => count_set_drop_other hthis hx hab)

/-! ## Every operation keeps the invariant -/

theorem SharedPtr.ctor_preserves {s s' : State} {n v : Nat} (hinv : Inv s n)
    (h : SharedPtr.ctor s = .ok v s') : Inv s' (n + 1) := by
  obtain ⟨hacc, hS, hW⟩ := hinv
  cases h
  refine ⟨?_, ?_, ?_⟩
  · exact hacc.congr_counts (fun b => count_append_null _ b) (fun _ => rfl)
  · simp only [List.length_append, List.length_singleton]
    omega
  · exact Nat.le_succ_of_le hW

theorem WeakPtr.weak_ctor_preserves {s s' : State} {n v : Nat} (hinv : Inv s n)
    (h : WeakPtr.ctor s = .ok v s') : Inv s' (n + 1) := by
  obtain ⟨hacc, hS, hW⟩ := hinv
  cases h
  refine ⟨?_, ?_, ?_⟩
  · exact hacc.congr_counts (fun _ => rfl) (fun b => count_append_null _ b)
  · exact Nat.le_succ_of_le hS
  · simp only [List.length_append, List.length_singleton]
    omega

theorem allocate_then_own_preserves {s : State} {n : Nat} (hinv : Inv s n)
    (blk : ControlBlockBase) (h1 : blk.shared_count = 1) (h0 : blk.weak_count = 0) :
    Inv { s with heap := s.heap ++ [some blk],
                 shared := s.shared ++ [some (some s.heap.length)] } (n + 1) := by
  obtain ⟨hacc, hS, hW⟩ := hinv
  refine ⟨?_, ?_, ?_⟩
  · exact Acc.allocate_step hacc h1 h0 (count_append_ref_self _ _)
      (fun b hb => count_append_ref_other _ hb)
  · simp only [List.length_append, List.length_singleton]
    omega
  · exact Nat.le_succ_of_le hW

theorem SharedPtr.ctor_ptr_preserves {s s' : State} {n v : Nat} {p : ValPtr} (hinv : Inv s n)
    (h : SharedPtr.ctor_ptr p s = .ok v s') : Inv s' (n + 1) := by
  cases h
  exact allocate_then_own_preserves hinv _ rfl rfl

theorem SharedPtr.ctor_ptr_del_preserves {s s' : State} {n v : Nat} {p : ValPtr}
    {del : Deleter} (hinv : Inv s n)
    (h : SharedPtr.ctor_ptr_del p del s = .ok v s') : Inv s' (n + 1) := by
  cases h
  exact allocate_then_own_preserves hinv _ rfl rfl

theorem SharedPtr.ctor_ptr_del_alloc_preserves {s s' : State} {n v : Nat} {p : ValPtr}
    {del : Deleter} {alloc : Alloc} (hinv : Inv s n)
    (h : SharedPtr.ctor_ptr_del_alloc p del alloc s = .ok v s') : Inv s' (n + 1) := by
  cases h
  exact allocate_then_own_preserves hinv _ rfl rfl

theorem allocateShared_preserves {s s' : State} {n v : Nat} {alloc : Alloc}
    {args : Option Nat} (hinv : Inv s n)
    (h : allocateShared alloc args s = .ok v s') : Inv s' (n + 1) := by
  rw [allocateShared_spec] at h
  cases h
  exact allocate_then_own_preserves hinv _ rfl rfl

theorem acquire_append_shared_preserves {s : State} {n b : Nat} {blk : ControlBlockBase}
    (hinv : Inv s n) (hn : n + 1 < SIZE_T_RANGE) (hb : s.heap[b]? = some (some blk)) :
    Inv { s with
          heap := s.heap.set b (some { blk with shared_count := size_t_inc blk.shared_count }),
          shared := s.shared ++ [some (some b)] } (n + 1) := by
  obtain ⟨hacc, hS, hW⟩ := hinv
  refine ⟨?_, ?_, ?_⟩
  · exact Acc.acquire_shared_step hacc hb (by omega) (count_append_ref_self _ _)
      (fun c hc => count_append_ref_other _ hc)
  · simp only [List.length_append, List.length_singleton]
    omega
  · exact Nat.le_succ_of_le hW

theorem acquire_append_weak_preserves {s : State} {n b : Nat} {blk : ControlBlockBase}
    (hinv : Inv s n) (hn : n + 1 < SIZE_T_RANGE) (hb : s.heap[b]? = some (some blk)) :
    Inv { s with
          heap := s.heap.set b (some { blk with weak_count := size_t_inc blk.weak_count }),
          weak := s.weak ++ [some (some b)] } (n + 1) := by
  obtain ⟨hacc, hS, hW⟩ := hinv
  refine ⟨?_, ?_, ?_⟩
  · exact Acc.acquire_weak_step hacc hb (by omega) (count_append_ref_self _ _)
      (fun c hc => count_append_ref_other _ hc)
  · exact Nat.le_succ_of_le hS
  · simp only [List.length_append, List.length_singleton]
    omega

theorem SharedPtr.ctor_copy_preserves {s s' : State} {n v other : Nat} (hinv : Inv s n)
    (hn : n + 1 < SIZE_T_RANGE)
    (h : SharedPtr.ctor_copy other s = .ok v s') : Inv s' (n + 1) := by
  unfold SharedPtr.ctor_copy at h
  obtain ⟨c, s1, h1, k1⟩ := M.bind_ok h
  obtain ⟨hc, e1⟩ := SharedPtr.cb_ok h1
  subst e1
  obtain ⟨this, s2, h2, k2⟩ := M.bind_ok k1
  cases h2
  obtain ⟨c', s3, h3, k3⟩ := M.bind_ok k2
  obtain ⟨hc', e3⟩ := SharedPtr.cb_ok h3
  subst e3
  simp only [List.getElem?_concat_length, Option.some.injEq] at hc'
  subst hc'
  cases c with
  | none =>
    simp only [ne_eq, not_true_eq_false, if_false] at k3
    obtain ⟨_, s4, h4, k4⟩ := M.bind_ok k3
    obtain ⟨_, e4⟩ := M.pure_ok h4
    subst e4
    obtain ⟨_, e5⟩ := M.pure_ok k4
    subst e5
    obtain ⟨hacc, hS, hW⟩ := hinv
    refine ⟨?_, ?_, ?_⟩
    · exact hacc.congr_counts (fun b => count_append_null _ b) (fun _ => rfl)
    · simp only [List.length_append, List.length_singleton]
      omega
    · exact Nat.le_succ_of_le hW
  | some b =>
    simp only [ne_eq, not_false_eq_true, if_true] at k3
    obtain ⟨_, s4, h4, k4⟩ := M.bind_ok k3
    obtain ⟨_, e5⟩ := M.pure_ok k4
    subst e5
    obtain ⟨b', blk, hb', hblk, e6⟩ := inc_shared_count_ok h4
    subst e6
    cases hb'
    exact acquire_append_shared_preserves hinv hn hblk

theorem count_move_append {l : List (Option CbPtr)} {j : Nat} {y : Option CbPtr}
    (hj : l[j]? = some y) (b : Nat) :
    ((l ++ [y]).set j (some none)).count (some (some b)) = l.count (some (some b)) := by
  have hjl := lt_length_of_getElem?_eq_some hj
  have h1 : (l ++ [y])[j]? = some y := by
    rw [List.getElem?_append_left hjl]
    exact hj
  have h2 := count_set_of_getElem? h1 (some none) (some (some b))
  have h3 : (l ++ [y]).count (some (some b)) =
      l.count (some (some b)) + (if y = some (some b) then 1 else 0) := by
    simp [List.count_append, List.count_singleton]
  rw [h3] at h2
  simp only [Option.some.injEq, reduceCtorEq, if_false, Nat.add_zero] at h2
  exact Nat.add_right_cancel h2

theorem count_move_set {l : List (Option CbPtr)} {i j : Nat} {x y : Option CbPtr}
    (hi : l[i]? = some x) (hj : l[j]? = some y) (b : Nat) :
    ((l.set i y).set j (some none)).count (some (some b)) =
      (l.set i (some none)).count (some (some b)) := by
  by_cases hij : i = j
  · subst hij
    rw [List.set_set]
  · have hil := lt_length_of_getElem?_eq_some hi
    have h1 : (l.set i y)[j]? = some y := by
      rw [List.getElem?_set_ne hij]
      exact hj
    have h2 := count_set_of_getElem? h1 (some none) (some (some b))
    have h3 := count_set_of_getElem? hi y (some (some b))
    have h4 := count_set_of_getElem? hi (some none) (some (some b))
    simp only [Option.some.injEq, reduceCtorEq, if_false, Nat.add_zero] at h2 h4
    generalize (if y = some (some b) then 1 else 0) = p at h2 h3
    generalize (if x = some (some b) then 1 else 0) = q at h3 h4
    omega

theorem count_swap {l : List (Option CbPtr)} {i j : Nat} {x y : Option CbPtr}
    (hi : l[i]? = some x) (hj : l[j]? = some y) (b : Nat) :
    ((l.set i y).set j x).count (some (some b)) = l.count (some (some b)) := by
  by_cases hij : i = j
  · subst hij
    rw [hi] at hj
    cases hj
    rw [List.set_set, set_eq_self_of_getElem? hi]
  · have h1 : (l.set i y)[j]? = some y := by
      rw [List.getElem?_set_ne hij]
      exact hj
    have h2 := count_set_of_getElem? h1 x (some (some b))
    have h3 := count_set_of_getElem? hi y (some (some b))
    generalize (if y = some (some b) then 1 else 0) = p at h2 h3
    generalize (if x = some (some b) then 1 else 0) = q at h2 h3
    omega

theorem Inv.mono {s : State} {n : Nat} (h : Inv s n) : Inv s (n + 1) :=
  ⟨h.1, Nat.le_succ_of_le h.2.1, Nat.le_succ_of_le h.2.2⟩

theorem SharedPtr.ctor_cb_preserves {s s' : State} {n v : Nat} {cb : CbPtr} (hinv : Inv s n)
    (hn : n + 1 < SIZE_T_RANGE)
    (h : SharedPtr.ctor_cb cb s = .ok v s') : Inv s' (n + 1) := by
  unfold SharedPtr.ctor_cb at h
  obtain ⟨this, s2, h2, k2⟩ := M.bind_ok h
  cases h2
  obtain ⟨c', s3, h3, k3⟩ := M.bind_ok k2
  obtain ⟨hc', e3⟩ := SharedPtr.cb_ok h3
  subst e3
  simp only [List.getElem?_concat_length, Option.some.injEq] at hc'
  subst hc'
  obtain ⟨_, s4, h4, k4⟩ := M.bind_ok k3
  obtain ⟨_, e5⟩ := M.pure_ok k4
  subst e5
  obtain ⟨b', blk, hb', hblk, e6⟩ := inc_shared_count_ok h4
  subst e6
  subst hb'
  exact acquire_append_shared_preserves hinv hn hblk

theorem SharedPtr.ctor_copy_conv_preserves {s s' : State} {n v other : Nat} (hinv : Inv s n)
    (hn : n + 1 < SIZE_T_RANGE)
    (h : SharedPtr.ctor_copy_conv other s = .ok v s') : Inv s' (n + 1) := by
  unfold SharedPtr.ctor_copy_conv at h
  obtain ⟨c, s1, h1, k1⟩ := M.bind_ok h
  obtain ⟨hc, e1⟩ := SharedPtr.cb_ok h1
  subst e1
  exact SharedPtr.ctor_cb_preserves hinv hn k1

theorem WeakPtr.lock_preserves {s s' : State} {n v this : Nat} (hinv : Inv s n)
    (hn : n + 1 < SIZE_T_RANGE)
    (h : WeakPtr.lock this s = .ok v s') : Inv s' (n + 1) := by
  unfold WeakPtr.lock at h
  obtain ⟨c, s1, h1, k1⟩ := M.bind_ok h
  obtain ⟨hc, e1⟩ := WeakPtr.weak_cb_ok h1
  subst e1
  exact SharedPtr.ctor_cb_preserves hinv hn k1

theorem SharedPtr.ctor_move_preserves {s s' : State} {n v other : Nat} (hinv : Inv s n)
    (h : SharedPtr.ctor_move other s = .ok v s') : Inv s' (n + 1) := by
  unfold SharedPtr.ctor_move at h
  obtain ⟨c, s1, h1, k1⟩ := M.bind_ok h
  obtain ⟨hc, e1⟩ := SharedPtr.cb_ok h1
  subst e1
  obtain ⟨this, s2, h2, k2⟩ := M.bind_ok k1
  cases h2
  obtain ⟨_, s3, h3, k3⟩ := M.bind_ok k2
  obtain ⟨_, e3⟩ := SharedPtr.set_cb_ok h3
  subst e3
  obtain ⟨_, e4⟩ := M.pure_ok k3
  subst e4
  obtain ⟨hacc, hS, hW⟩ := hinv
  refine ⟨?_, ?_, ?_⟩
  · exact hacc.congr_counts (fun b => count_move_append hc b) (fun _ => rfl)
  · simp only [List.length_set, List.length_append, List.length_singleton]
    omega
  · exact Nat.le_succ_of_le hW

theorem SharedPtr.dtor_preserves {s s' : State} {n this : Nat} {u : Unit} (hinv : Inv s n)
    (hn : n + 1 < SIZE_T_RANGE)
    (h : SharedPtr.dtor this s = .ok u s') : Inv s' (n + 1) := by
  rw [SharedPtr.dtor_eq] at h
  obtain ⟨c, s1, h1, k1⟩ := M.bind_ok h
  obtain ⟨hc, e1⟩ := SharedPtr.cb_ok h1
  subst e1
  obtain ⟨_, s2, h2, k2⟩ := M.bind_ok k1
  obtain ⟨hacc, hS, hW⟩ := hinv
  obtain ⟨eS, eW, hA⟩ := release_shared_phase hacc (by omega) hc h2 none (by intro b; simp)
  obtain ⟨_, e3⟩ := SharedPtr.end_lifetime_ok k2
  subst e3
  refine ⟨?_, ?_, ?_⟩
  · show Acc s2.heap (s2.shared.set this none) s2.weak
    rw [eS, eW]
    exact hA
  · show (s2.shared.set this none).length ≤ n + 1
    rw [eS, List.length_set]
    omega
  · show s2.weak.length ≤ n + 1
    rw [eW]
    omega

theorem SharedPtr.reset_preserves {s s' : State} {n this : Nat} {u : Unit} (hinv : Inv s n)
    (hn : n + 1 < SIZE_T_RANGE)
    (h : SharedPtr.reset this s = .ok u s') : Inv s' (n + 1) := by
  rw [SharedPtr.reset_eq] at h
  obtain ⟨c, s1, h1, k1⟩ := M.bind_ok h
  obtain ⟨hc, e1⟩ := SharedPtr.cb_ok h1
  subst e1
  obtain ⟨_, s2, h2, k2⟩ := M.bind_ok k1
  obtain ⟨hacc, hS, hW⟩ := hinv
  obtain ⟨eS, eW, hA⟩ := release_shared_phase hacc (by omega) hc h2 (some none)
    (by intro b; simp)
  obtain ⟨_, e3⟩ := SharedPtr.set_cb_ok k2
  subst e3
  refine ⟨?_, ?_, ?_⟩
  · show Acc s2.heap (s2.shared.set this (some none)) s2.weak
    rw [eS, eW]
    exact hA
  · show (s2.shared.set this (some none)).length ≤ n + 1
    rw [eS, List.length_set]
    omega
  · show s2.weak.length ≤ n + 1
    rw [eW]
    omega

theorem release_then_allocate_preserves {s s2 s' : State} {n this : Nat} {c : CbPtr}
    {u v : Unit} (blk : ControlBlockBase) (h1 : blk.shared_count = 1)
    (h0 : blk.weak_count = 0) (hinv : Inv s n) (hn : n + 1 < SIZE_T_RANGE)
    (hc : s.shared[this]? = some (some c))
    (h2 : release_shared c s = .ok u s2)
    (k2 : (do
      let cbd ← allocate blk
      SharedPtr.set_cb this (some cbd) : M Unit) s2 = .ok v s') : Inv s' (n + 1) := by
  obtain ⟨hacc, hS, hW⟩ := hinv
  obtain ⟨eS, eW, hA⟩ := release_shared_phase hacc (by omega) hc h2 (some none)
    (by intro b; simp)
  obtain ⟨cbd, s3, h3, k3⟩ := M.bind_ok k2
  cases h3
  obtain ⟨_, e3⟩ := SharedPtr.set_cb_ok k3
  subst e3
  have hcl := lt_length_of_getElem?_eq_some hc
  have hnull : (s.shared.set this (some none))[this]? = some (some none) := by
    rw [List.getElem?_set_self hcl]
  refine ⟨?_, ?_, ?_⟩
  · show Acc (s2.heap ++ [some blk]) (s2.shared.set this (some (some s2.heap.length))) s2.weak
    rw [eS, eW]
    have e : s.shared.set this (some (some s2.heap.length)) =
        (s.shared.set this (some none)).set this (some (some s2.heap.length)) := by
      rw [List.set_set]
    rw [e]
    exact Acc.allocate_step hA h1 h0
      (count_set_gain_self hnull (by intro b; simp))
      (fun b hb => count_set_gain_other hnull (by intro b; simp) hb)
  · show (s2.shared.set this (some (some s2.heap.length))).length ≤ n + 1
    rw [eS, List.length_set]
    omega
  · show s2.weak.length ≤ n + 1
    rw [eW]
    omega

theorem SharedPtr.reset_ptr_preserves {s s' : State} {n this : Nat} {p : ValPtr} {u : Unit}
    (hinv : Inv s n) (hn : n + 1 < SIZE_T_RANGE)
    (h : SharedPtr.reset_ptr this p s = .ok u s') : Inv s' (n + 1) := by
  rw [SharedPtr.reset_ptr_eq] at h
  obtain ⟨c, s1, h1, k1⟩ := M.bind_ok h
  obtain ⟨hc, e1⟩ := SharedPtr.cb_ok h1
  subst e1
  obtain ⟨_, s2, h2, k2⟩ := M.bind_ok k1
  exact release_then_allocate_preserves _ rfl rfl hinv hn hc h2 k2

theorem SharedPtr.reset_ptr_del_alloc_preserves {s s' : State} {n this : Nat} {p : ValPtr}
    {del : Deleter} {alloc : Alloc} {u : Unit}
    (hinv : Inv s n) (hn : n + 1 < SIZE_T_RANGE)
    (h : SharedPtr.reset_ptr_del_alloc this p del alloc s = .ok u s') : Inv s' (n + 1) := by
  rw [SharedPtr.reset_ptr_del_alloc_eq] at h
  obtain ⟨c, s1, h1, k1⟩ := M.bind_ok h
  obtain ⟨hc, e1⟩ := SharedPtr.cb_ok h1
  subst e1
  obtain ⟨_, s2, h2, k2⟩ := M.bind_ok k1
  exact release_then_allocate_preserves _ rfl rfl hinv hn hc h2 k2

theorem SharedPtr.assign_copy_preserves {s s' : State} {n this other : Nat} {u : Unit}
    (hinv : Inv s n) (hn : n + 1 < SIZE_T_RANGE)
    (h : SharedPtr.assign_copy this other s = .ok u s') : Inv s' (n + 1) := by
  rw [SharedPtr.assign_copy_eq] at h
  obtain ⟨c, s1, h1, k1⟩ := M.bind_ok h
  obtain ⟨hc, e1⟩ := SharedPtr.cb_ok h1
  subst e1
  obtain ⟨_, s2, h2, k2⟩ := M.bind_ok k1
  obtain ⟨hacc, hS, hW⟩ := hinv
  obtain ⟨eS, eW, hA⟩ := release_shared_phase hacc (by omega) hc h2 (some none)
    (by intro b; simp)
  obtain ⟨c2, s3, h3, k3⟩ := M.bind_ok k2
  obtain ⟨hc2, e3⟩ := SharedPtr.cb_ok h3
  subst e3
  obtain ⟨_, s4, h4, k4⟩ := M.bind_ok k3
  obtain ⟨_, e4⟩ := SharedPtr.set_cb_ok h4
  subst e4
  obtain ⟨c3, s5, h5, k5⟩ := M.bind_ok k4
  obtain ⟨hc3, e5⟩ := SharedPtr.cb_ok h5
  subst e5
  have hcl := lt_length_of_getElem?_eq_some hc
  have hcl2 : this < s2.shared.length := by
    rw [eS]
    exact hcl
  simp only [List.getElem?_set_self hcl2, Option.some.injEq] at hc3
  subst hc3
  obtain ⟨b, blk, hb, hblk, e6⟩ := inc_shared_count_ok k5
  subst e6
  subst hb
  have hnull : (s.shared.set this (some none))[this]? = some (some none) := by
    rw [List.getElem?_set_self hcl]
  refine ⟨?_, ?_, ?_⟩
  · show Acc (s2.heap.set b (some { blk with shared_count := size_t_inc blk.shared_count }))
      (s2.shared.set this (some (some b))) s2.weak
    rw [eS, eW]
    have e : s.shared.set this (some (some b)) =
        (s.shared.set this (some none)).set this (some (some b)) := by
      rw [List.set_set]
    rw [e]
    exact Acc.acquire_shared_step hA hblk (by rw [List.length_set]; omega)
      (count_set_gain_self hnull (by intro b; simp))
      (fun b hb => count_set_gain_other hnull (by intro b; simp) hb)
  · show (s2.shared.set this (some (some b))).length ≤ n + 1
    rw [eS, List.length_set]
    omega
  · show s2.weak.length ≤ n + 1
    rw [eW]
    omega

theorem SharedPtr.assign_move_preserves {s s' : State} {n this other : Nat} {u : Unit}
    (hinv : Inv s n) (hn : n + 1 < SIZE_T_RANGE)
    (h : SharedPtr.assign_move this other s = .ok u s') : Inv s' (n + 1) := by
  rw [SharedPtr.assign_move_eq] at h
  obtain ⟨c, s1, h1, k1⟩ := M.bind_ok h
  obtain ⟨hc, e1⟩ := SharedPtr.cb_ok h1
  subst e1
  obtain ⟨_, s2, h2, k2⟩ := M.bind_ok k1
  obtain ⟨hacc, hS, hW⟩ := hinv
  obtain ⟨eS, eW, hA⟩ := release_shared_phase hacc (by omega) hc h2 (some none)
    (by intro b; simp)
  obtain ⟨c2, s3, h3, k3⟩ := M.bind_ok k2
  obtain ⟨hc2, e3⟩ := SharedPtr.cb_ok h3
  subst e3
  obtain ⟨_, s4, h4, k4⟩ := M.bind_ok k3
  obtain ⟨_, e4⟩ := SharedPtr.set_cb_ok h4
  subst e4
  obtain ⟨_, e5⟩ := SharedPtr.set_cb_ok k4
  subst e5
  rw [eS] at hc2
  refine ⟨?_, ?_, ?_⟩
  · show Acc s2.heap ((s2.shared.set this (some c2)).set other (some none)) s2.weak
    rw [eS, eW]
    exact hA.congr_counts (fun b => count_move_set hc hc2 b) (fun _ => rfl)
  · show ((s2.shared.set this (some c2)).set other (some none)).length ≤ n + 1
    rw [eS, List.length_set, List.length_set]
    omega
  · show s2.weak.length ≤ n + 1
    rw [eW]
    omega

theorem SharedPtr.swap_preserves {s s' : State} {n this sp : Nat} {u : Unit}
    (hinv : Inv s n)
    (h : SharedPtr.swap this sp s = .ok u s') : Inv s' (n + 1) := by
  unfold SharedPtr.swap at h
  obtain ⟨c, s1, h1, k1⟩ := M.bind_ok h
  obtain ⟨hc, e1⟩ := SharedPtr.cb_ok h1
  subst e1
  obtain ⟨c2, s3, h3, k3⟩ := M.bind_ok k1
  obtain ⟨hc2, e3⟩ := SharedPtr.cb_ok h3
  subst e3
  obtain ⟨_, s4, h4, k4⟩ := M.bind_ok k3
  obtain ⟨_, e4⟩ := SharedPtr.set_cb_ok h4
  subst e4
  obtain ⟨_, e5⟩ := SharedPtr.set_cb_ok k4
  subst e5
  obtain ⟨hacc, hS, hW⟩ := hinv
  refine ⟨?_, ?_, ?_⟩
  · exact hacc.congr_counts (fun b => count_swap hc hc2 b) (fun _ => rfl)
  · show ((s.shared.set this (some c2)).set sp (some c)).length ≤ n + 1
    rw [List.length_set, List.length_set]
    omega
  · exact Nat.le_succ_of_le hW

theorem SharedPtr.get_const_state {s s' : State} {this : Nat} {p : ValPtr}
    (h : SharedPtr.get_const this s = .ok p s') : s = s' := by
  unfold SharedPtr.get_const at h
  obtain ⟨c, s1, h1, k1⟩ := M.bind_ok h
  obtain ⟨_, e1⟩ := SharedPtr.cb_ok h1
  subst e1
  exact ptr_ok k1

theorem SharedPtr.get_state {s s' : State} {this : Nat} {p : ValPtr}
    (h : SharedPtr.get this s = .ok p s') : s = s' := by
  unfold SharedPtr.get at h
  obtain ⟨c, s1, h1, k1⟩ := M.bind_ok h
  obtain ⟨_, e1⟩ := SharedPtr.cb_ok h1
  subst e1
  by_cases hc : c = none
  · rw [if_pos hc] at k1
    exact (M.pure_ok k1).2
  · rw [if_neg hc] at k1
    exact ptr_ok k1

theorem SharedPtr.use_count_state {s s' : State} {this v : Nat}
    (h : SharedPtr.use_count this s = .ok v s') : s = s' := by
  unfold SharedPtr.use_count at h
  obtain ⟨c, s1, h1, k1⟩ := M.bind_ok h
  obtain ⟨_, e1⟩ := SharedPtr.cb_ok h1
  subst e1
  exact shared_count_ok k1

theorem WeakPtr.weak_use_count_state {s s' : State} {this v : Nat}
    (h : WeakPtr.use_count this s = .ok v s') : s = s' := by
  unfold WeakPtr.use_count at h
  obtain ⟨c, s1, h1, k1⟩ := M.bind_ok h
  obtain ⟨_, e1⟩ := WeakPtr.weak_cb_ok h1
  subst e1
  exact shared_count_ok k1

theorem WeakPtr.expired_state {s s' : State} {this : Nat} {v : Bool}
    (h : WeakPtr.expired this s = .ok v s') : s = s' := by
  unfold WeakPtr.expired at h
  obtain ⟨c, s1, h1, k1⟩ := M.bind_ok h
  have e1 := WeakPtr.weak_use_count_state h1
  subst e1
  exact (M.pure_ok k1).2

theorem WeakPtr.ctor_shared_preserves {s s' : State} {n v sp : Nat} (hinv : Inv s n)
    (hn : n + 1 < SIZE_T_RANGE)
    (h : WeakPtr.ctor_shared sp s = .ok v s') : Inv s' (n + 1) := by
  unfold WeakPtr.ctor_shared at h
  obtain ⟨c, s1, h1, k1⟩ := M.bind_ok h
  obtain ⟨hc, e1⟩ := SharedPtr.cb_ok h1
  subst e1
  obtain ⟨this, s2, h2, k2⟩ := M.bind_ok k1
  cases h2
  obtain ⟨c', s3, h3, k3⟩ := M.bind_ok k2
  obtain ⟨hc', e3⟩ := WeakPtr.weak_cb_ok h3
  subst e3
  simp only [List.getElem?_concat_length, Option.some.injEq] at hc'
  subst hc'
  obtain ⟨_, s4, h4, k4⟩ := M.bind_ok k3
  obtain ⟨_, e5⟩ := M.pure_ok k4
  subst e5
  obtain ⟨b', blk, hb', hblk, e6⟩ := inc_weak_count_ok h4
  subst e6
  subst hb'
  exact acquire_append_weak_preserves hinv hn hblk

theorem WeakPtr.weak_ctor_copy_preserves {s s' : State} {n v other : Nat} (hinv : Inv s n)
    (hn : n + 1 < SIZE_T_RANGE)
    (h : WeakPtr.ctor_copy other s = .ok v s') : Inv s' (n + 1) := by
  unfold WeakPtr.ctor_copy at h
  obtain ⟨c, s1, h1, k1⟩ := M.bind_ok h
  obtain ⟨hc, e1⟩ := WeakPtr.weak_cb_ok h1
  subst e1
  obtain ⟨this, s2, h2, k2⟩ := M.bind_ok k1
  cases h2
  obtain ⟨c', s3, h3, k3⟩ := M.bind_ok k2
  obtain ⟨hc', e3⟩ := WeakPtr.weak_cb_ok h3
  subst e3
  simp only [List.getElem?_concat_length, Option.some.injEq] at hc'
  subst hc'
  obtain ⟨_, s4, h4, k4⟩ := M.bind_ok k3
  obtain ⟨_, e5⟩ := M.pure_ok k4
  subst e5
  obtain ⟨b', blk, hb', hblk, e6⟩ := inc_weak_count_ok h4
  subst e6
  subst hb'
  exact acquire_append_weak_preserves hinv hn hblk

theorem WeakPtr.weak_ctor_move_preserves {s s' : State} {n v other : Nat} (hinv : Inv s n)
    (h : WeakPtr.ctor_move other s = .ok v s') : Inv s' (n + 1) := by
  unfold WeakPtr.ctor_move at h
  obtain ⟨c, s1, h1, k1⟩ := M.bind_ok h
  obtain ⟨hc, e1⟩ := WeakPtr.weak_cb_ok h1
  subst e1
  obtain ⟨this, s2, h2, k2⟩ := M.bind_ok k1
  cases h2
  obtain ⟨_, s3, h3, k3⟩ := M.bind_ok k2
  obtain ⟨_, e3⟩ := WeakPtr.weak_set_cb_ok h3
  subst e3
  obtain ⟨_, e4⟩ := M.pure_ok k3
  subst e4
  obtain ⟨hacc, hS, hW⟩ := hinv
  refine ⟨?_, ?_, ?_⟩
  · exact hacc.congr_counts (fun _ => rfl) (fun b => count_move_append hc b)
  · exact Nat.le_succ_of_le hS
  · simp only [List.length_set, List.length_append, List.length_singleton]
    omega

theorem WeakPtr.weak_dtor_preserves {s s' : State} {n this : Nat} {u : Unit} (hinv : Inv s n)
    (hn : n + 1 < SIZE_T_RANGE)
    (h : WeakPtr.dtor this s = .ok u s') : Inv s' (n + 1) := by
  rw [WeakPtr.weak_dtor_eq] at h
  obtain ⟨c, s1, h1, k1⟩ := M.bind_ok h
  obtain ⟨hc, e1⟩ := WeakPtr.weak_cb_ok h1
  subst e1
  obtain ⟨_, s2, h2, k2⟩ := M.bind_ok k1
  obtain ⟨hacc, hS, hW⟩ := hinv
  obtain ⟨eS, eW, hA⟩ := release_weak_phase hacc (by omega) hc h2 none (by intro b; simp)
  obtain ⟨_, e3⟩ := WeakPtr.weak_end_lifetime_ok k2
  subst e3
  refine ⟨?_, ?_, ?_⟩
  · show Acc s2.heap s2.shared (s2.weak.set this none)
    rw [eS, eW]
    exact hA
  · show s2.shared.length ≤ n + 1
    rw [eS]
    omega
  · show (s2.weak.set this none).length ≤ n + 1
    rw [eW, List.length_set]
    omega

theorem weak_release_then_acquire_preserves {s s2 s' : State} {n this : Nat} {c c2 : CbPtr}
    {u v : Unit} (hinv : Inv s n) (hn : n + 1 < SIZE_T_RANGE)
    (hc : s.weak[this]? = some (some c))
    (h2 : release_weak c s = .ok u s2)
    (k3 : (do
      WeakPtr.set_cb this c2
      inc_weak_count (← WeakPtr.cb this) : M Unit) s2 = .ok v s') : Inv s' (n + 1) := by
  obtain ⟨hacc, hS, hW⟩ := hinv
  obtain ⟨eS, eW, hA⟩ := release_weak_phase hacc (by omega) hc h2 (some none)
    (by intro b; simp)
  obtain ⟨_, s4, h4, k4⟩ := M.bind_ok k3
  obtain ⟨_, e4⟩ := WeakPtr.weak_set_cb_ok h4
  subst e4
  obtain ⟨c3, s5, h5, k5⟩ := M.bind_ok k4
  obtain ⟨hc3, e5⟩ := WeakPtr.weak_cb_ok h5
  subst e5
  have hcl := lt_length_of_getElem?_eq_some hc
  have hcl2 : this < s2.weak.length := by
    rw [eW]
    exact hcl
  simp only [List.getElem?_set_self hcl2, Option.some.injEq] at hc3
  subst hc3
  obtain ⟨b, blk, hb, hblk, e6⟩ := inc_weak_count_ok k5
  subst e6
  subst hb
  have hnull : (s.weak.set this (some none))[this]? = some (some none) := by
    rw [List.getElem?_set_self hcl]
  refine ⟨?_, ?_, ?_⟩
  · show Acc (s2.heap.set b (some { blk with weak_count := size_t_inc blk.weak_count }))
      s2.shared (s2.weak.set this (some (some b)))
    rw [eS, eW]
    have e : s.weak.set this (some (some b)) =
        (s.weak.set this (some none)).set this (some (some b)) := by
      rw [List.set_set]
    rw [e]
    exact Acc.acquire_weak_step hA hblk (by rw [List.length_set]; omega)
      (count_set_gain_self hnull (by intro b; simp))
      (fun b hb => count_set_gain_other hnull (by intro b; simp) hb)
  · show s2.shared.length ≤ n + 1
    rw [eS]
    omega
  · show (s2.weak.set this (some (some b))).length ≤ n + 1
    rw [eW, List.length_set]
    omega

theorem WeakPtr.assign_shared_preserves {s s' : State} {n this sp : Nat} {u : Unit}
    (hinv : Inv s n) (hn : n + 1 < SIZE_T_RANGE)
    (h : WeakPtr.assign_shared this sp s = .ok u s') : Inv s' (n + 1) := by
  rw [WeakPtr.assign_shared_eq] at h
  obtain ⟨c, s1, h1, k1⟩ := M.bind_ok h
  obtain ⟨hc, e1⟩ := WeakPtr.weak_cb_ok h1
  subst e1
  obtain ⟨_, s2, h2, k2⟩ := M.bind_ok k1
  obtain ⟨c2, s3, h3, k3⟩ := M.bind_ok k2
  obtain ⟨hc2, e3⟩ := SharedPtr.cb_ok h3
  subst e3
  exact weak_release_then_acquire_preserves hinv hn hc h2 k3

theorem WeakPtr.weak_assign_copy_preserves {s s' : State} {n this other : Nat} {u : Unit}
    (hinv : Inv s n) (hn : n + 1 < SIZE_T_RANGE)
    (h : WeakPtr.assign_copy this other s = .ok u s') : Inv s' (n + 1) := by
  rw [WeakPtr.weak_assign_copy_eq] at h
  obtain ⟨c, s1, h1, k1⟩ := M.bind_ok h
  obtain ⟨hc, e1⟩ := WeakPtr.weak_cb_ok h1
  subst e1
  obtain ⟨_, s2, h2, k2⟩ := M.bind_ok k1
  obtain ⟨c2, s3, h3, k3⟩ := M.bind_ok k2
  obtain ⟨hc2, e3⟩ := WeakPtr.weak_cb_ok h3
  subst e3
  exact weak_release_then_acquire_preserves hinv hn hc h2 k3

theorem WeakPtr.weak_assign_move_preserves {s s' : State} {n this other : Nat} {u : Unit}
    (hinv : Inv s n) (hn : n + 1 < SIZE_T_RANGE)
    (h : WeakPtr.assign_move this other s = .ok u s') : Inv s' (n + 1) := by
  rw [WeakPtr.weak_assign_move_eq] at h
  obtain ⟨c, s1, h1, k1⟩ := M.bind_ok h
  obtain ⟨hc, e1⟩ := WeakPtr.weak_cb_ok h1
  subst e1
  obtain ⟨_, s2, h2, k2⟩ := M.bind_ok k1
  obtain ⟨hacc, hS, hW⟩ := hinv
  obtain ⟨eS, eW, hA⟩ := release_weak_phase hacc (by omega) hc h2 (some none)
    (by intro b; simp)
  obtain ⟨c2, s3, h3, k3⟩ := M.bind_ok k2
  obtain ⟨hc2, e3⟩ := WeakPtr.weak_cb_ok h3
  subst e3
  obtain ⟨_, s4, h4, k4⟩ := M.bind_ok k3
  obtain ⟨_, e4⟩ := WeakPtr.weak_set_cb_ok h4
  subst e4
  obtain ⟨_, e5⟩ := WeakPtr.weak_set_cb_ok k4
  subst e5
  rw [eW] at hc2
  refine ⟨?_, ?_, ?_⟩
  · show Acc s2.heap s2.shared ((s2.weak.set this (some c2)).set other (some none))
    rw [eS, eW]
    exact hA.congr_counts (fun _ => rfl) (fun b => count_move_set hc hc2 b)
  · show s2.shared.length ≤ n + 1
    rw [eS]
    omega
  · show ((s2.weak.set this (some c2)).set other (some none)).length ≤ n + 1
    rw [eW, List.length_set, List.length_set]
    omega

theorem discard_ok {α : Type} {m : M α} {s s' : State} {u : Unit}
    (h : (do let _ ← m : M Unit) s = .ok u s') : ∃ v, m s = .ok v s' := by
  obtain ⟨v, s1, h1, k1⟩ := M.bind_ok h
  obtain ⟨_, e1⟩ := M.pure_ok k1
  subst e1
  exact ⟨v, h1⟩

theorem Op.exec_preserves (op : Op) {s s' : State} {n : Nat} {u : Unit} (hinv : Inv s n)
    (hn : n + 1 < SIZE_T_RANGE) (h : op.exec s = .ok u s') : Inv s' (n + 1) := by
  cases op with
  | sp_ctor =>
    obtain ⟨v, hv⟩ := discard_ok h
    exact SharedPtr.ctor_preserves hinv hv
  | sp_ctor_ptr p =>
    obtain ⟨v, hv⟩ := discard_ok h
    exact SharedPtr.ctor_ptr_preserves hinv hv
  | sp_ctor_ptr_del p del =>
    obtain ⟨v, hv⟩ := discard_ok h
    exact SharedPtr.ctor_ptr_del_preserves hinv hv
  | sp_ctor_ptr_del_alloc p del alloc =>
    obtain ⟨v, hv⟩ := discard_ok h
    exact SharedPtr.ctor_ptr_del_alloc_preserves hinv hv
  | sp_ctor_copy other =>
    obtain ⟨v, hv⟩ := discard_ok h
    exact SharedPtr.ctor_copy_preserves hinv hn hv
  | sp_ctor_move other =>
    obtain ⟨v, hv⟩ := discard_ok h
    exact SharedPtr.ctor_move_preserves hinv hv
  | sp_assign_copy this other => exact SharedPtr.assign_copy_preserves hinv hn h
  | sp_assign_move this other => exact SharedPtr.assign_move_preserves hinv hn h
  | sp_ctor_copy_conv other =>
    obtain ⟨v, hv⟩ := discard_ok h
    exact SharedPtr.ctor_copy_conv_preserves hinv hn hv
  | sp_assign_copy_conv this other => exact SharedPtr.assign_copy_preserves hinv hn h
  | sp_assign_move_conv this other => exact SharedPtr.assign_move_preserves hinv hn h
  | sp_dtor this => exact SharedPtr.dtor_preserves hinv hn h
  | sp_operator_star this =>
    obtain ⟨v, hv⟩ := discard_ok h
    have e := SharedPtr.get_const_state hv
    subst e
    exact hinv.mono
  | sp_operator_arrow this =>
    obtain ⟨v, hv⟩ := discard_ok h
    have e := SharedPtr.get_const_state hv
    subst e
    exact hinv.mono
  | sp_get this =>
    obtain ⟨v, hv⟩ := discard_ok h
    have e := SharedPtr.get_state hv
    subst e
    exact hinv.mono
  | sp_get_const this =>
    obtain ⟨v, hv⟩ := discard_ok h
    have e := SharedPtr.get_const_state hv
    subst e
    exact hinv.mono
  | sp_use_count this =>
    obtain ⟨v, hv⟩ := discard_ok h
    have e := SharedPtr.use_count_state hv
    subst e
    exact hinv.mono
  | sp_reset this => exact SharedPtr.reset_preserves hinv hn h
  | sp_reset_ptr this p => exact SharedPtr.reset_ptr_preserves hinv hn h
  | sp_reset_ptr_del_alloc this p del alloc =>
    exact SharedPtr.reset_ptr_del_alloc_preserves hinv hn h
  | sp_swap this sp => exact SharedPtr.swap_preserves hinv h
  | allocate_shared alloc args =>
    obtain ⟨v, hv⟩ := discard_ok h
    exact allocateShared_preserves hinv hv
  | make_shared args =>
    obtain ⟨v, hv⟩ := discard_ok h
    exact allocateShared_preserves hinv hv
  | wp_ctor =>
    obtain ⟨v, hv⟩ := discard_ok h
    exact WeakPtr.weak_ctor_preserves hinv hv
  | wp_ctor_shared sp =>
    obtain ⟨v, hv⟩ := discard_ok h
    exact WeakPtr.ctor_shared_preserves hinv hn hv
  | wp_assign_shared this sp => exact WeakPtr.assign_shared_preserves hinv hn h
  | wp_ctor_copy other =>
    obtain ⟨v, hv⟩ := discard_ok h
    exact WeakPtr.weak_ctor_copy_preserves hinv hn hv
  | wp_ctor_move other =>
    obtain ⟨v, hv⟩ := discard_ok h
    exact WeakPtr.weak_ctor_move_preserves hinv hv
  | wp_assign_copy this other => exact WeakPtr.weak_assign_copy_preserves hinv hn h
  | wp_assign_move this other => exact WeakPtr.weak_assign_move_preserves hinv hn h
  | wp_dtor this => exact WeakPtr.weak_dtor_preserves hinv hn h
  | wp_use_count this =>
    obtain ⟨v, hv⟩ := discard_ok h
    have e := WeakPtr.weak_use_count_state hv
    subst e
    exact hinv.mono
  | wp_expired this =>
    obtain ⟨v, hv⟩ := discard_ok h
    have e := WeakPtr.expired_state hv
    subst e
    exact hinv.mono
  | wp_lock this =>
    obtain ⟨v, hv⟩ := discard_ok h
    exact WeakPtr.lock_preserves hinv hn hv

theorem run_preserves (ops : List Op) {s s' : State} {n : Nat} {u : Unit} (hinv : Inv s n)
    (hn : n + ops.length < SIZE_T_RANGE) (h : run ops s = .ok u s') :
    Inv s' (n + ops.length) := by
  induction ops generalizing s n with
  | nil =>
    obtain ⟨_, e⟩ := M.pure_ok h
    subst e
    exact hinv
  | cons op ops ih =>
    simp only [List.length_cons] at hn ⊢
    obtain ⟨v, s1, h1, k1⟩ := M.bind_ok h
    have hstep := Op.exec_preserves op hinv (by omega) h1
    have := ih hstep (by omega) k1
    rw [show n + (ops.length + 1) = n + 1 + ops.length by omega]
    exact this

theorem Inv.empty : Inv State.empty 0 := by
  refine ⟨?_, Nat.le_refl _, Nat.le_refl _⟩
  intro b
  exact ⟨rfl, rfl⟩

/-- Count accuracy in runs without undefined behaviour: let `s` be a state reached from the
empty state by a program of fewer than `2 ^ 64` public operations of `SharedPtr`, `WeakPtr`,
`allocateShared` and `makeShared` that ran without a fault, and `h` a live owning handle of
`s` that holds the block at `b`. Then `h.use_count()` succeeds, leaves `s` as it is and
returns the number of live owning handles of `s` that hold the block at `b`. -/
theorem use_count_counts_live_owners_of_defined_run (ops : List Op) (s : State) (h b : Nat)
    (hlen : ops.length < SIZE_T_RANGE)
    (hrun : run ops State.empty = .ok () s)
    (hh : s.shared[h]? = some (some (some b))) :
    SharedPtr.use_count h s = .ok (live_owners s b) s := by
  have hinv := run_preserves ops Inv.empty (by omega) hrun
  have hacc : Acc s.heap s.shared s.weak := hinv.1
  obtain ⟨blk, hblk⟩ := hacc.allocated_of_shared_pos (count_pos_of_getElem? hh)
  rw [SharedPtr.use_count_spec s h b blk hh hblk, hacc.shared_count_eq hblk]
  rfl

theorem use_count_counts_live_owners_example :
    SharedPtr.use_count 1
      { heap := [some ⟨2, 1, .raw 7, .ControlBlockDirect .default_delete .allocator⟩],
        shared := [some (some 0), some (some 0)], weak := [some (some 0)], log := [] }
    = .ok 2
      { heap := [some ⟨2, 1, .raw 7, .ControlBlockDirect .default_delete .allocator⟩],
        shared := [some (some 0), some (some 0)], weak := [some (some 0)], log := [] } :=
  use_count_counts_live_owners_of_defined_run
    [.sp_ctor_ptr (.raw 7), .sp_ctor_copy 0, .wp_ctor_shared 0] _ 1 0
    (by decide) (by decide) (by decide)

/-- C5, the code at the failing input: the program `SharedPtr<T> a(p); a = a;` consists of
public operations on a valid handle; its copy assignment deallocates the block and stops at
the write into the freed storage. In the state reached, `a` is a live handle that holds the
block, so the number of live owners of the block is 1, but `a.use_count()` does not return 1:
it reads `cb->shared_count` from the deallocated block. -/
theorem C5_use_count_reads_freed_block_after_self_assignment :
    run [.sp_ctor_ptr (.raw 7), .sp_assign_copy 0 0] State.empty
      = .fault .use_after_free dangling_owner_state ∧
    dangling_owner_state.shared[0]? = some (some (some 0)) ∧
    live_owners dangling_owner_state 0 = 1 ∧
    SharedPtr.use_count 0 dangling_owner_state
      = .fault .use_after_free dangling_owner_state := by
  decide

/-! ## Supporting facts for the defective paths -/

theorem SharedPtr.assign_copy_same_block (st : State) (d s b : Nat) (blk : ControlBlockBase)
    (hd : st.shared[d]? = some (some (some b))) (hs : st.shared[s]? = some (some (some b)))
    (hb : st.heap[b]? = some (some blk))
    (h2 : 2 ≤ blk.shared_count) (hlt : blk.shared_count < SIZE_T_RANGE) :
    SharedPtr.assign_copy d s st = .ok () st := by
  have hdl := lt_length_of_getElem?_eq_some hd
  have hbl := lt_length_of_getElem?_eq_some hb
  have hne : ¬ (blk.shared_count = 1) := by omega
  have hinc : size_t_inc (blk.shared_count - 1) = blk.shared_count := by
    rw [@size_t_inc_of_lt (blk.shared_count - 1) (by omega)]
    omega
  have hrel := released_shared_of_pos st b blk (by omega) hlt
  simp only [hne, false_and, if_false, List.append_nil] at hrel
  have hsd : (st.shared.set d (some (some b)))[d]? = some (some (some b)) := by
    rw [List.getElem?_set_self hdl]
  have hs' : st.shared[s]? = some (some (some b)) := hs
  rw [SharedPtr.assign_copy_eq]
  simp only [M.bind_apply, SharedPtr.cb, hd, release_shared_some st b blk hb, hrel, hs',
    SharedPtr.set_cb, hsd, inc_shared_count, deref, store, List.getElem?_set_self hbl,
    List.set_set, hinc]
  rw [set_eq_self_of_getElem? hd, set_eq_self_of_getElem? hb]

theorem observer_dropped_before_owner :
    run [.sp_ctor_ptr (.raw 7), .wp_ctor_shared 0, .wp_dtor 0] State.empty
    = .ok ()
        { heap := [some ⟨1, 0, .raw 7, .ControlBlockDirect .default_delete .allocator⟩],
          shared := [some (some 0)],
          weak := [none],
          log := [] }
    ∧
    run [.sp_ctor_ptr (.raw 7), .wp_ctor_shared 0, .wp_dtor 0, .sp_dtor 0] State.empty
    = .ok ()
        { heap := [none],
          shared := [none],
          weak := [none],
          log := [.deleter_call 0 .default_delete (.raw 7), .deallocate 0 .allocator] } := by
  decide!

end SmartPointers
